import Mathlib

/-!
The port worker of erlang-czmq, `c_src/erl_czmq.c`.

A shallow embedding of the C worker: the framed transport on file
descriptors 0 and 1 (`read_exact`, `read_cmd`, `write_exact`, `write_cmd`),
the reply path (`safe_erl_encode`, `write_term`), the handle table
(`save_socket`, `get_socket`), the ten command handlers, the dispatcher
`handle_cmd` and the main loop `erl_czmq_loop`.

Conventions of the embedding:
* a `byte` is a `Nat`; a buffer (`byte *buf`) is a `List Nat`;
* a pointer to a foreign object (`void *socket`) is a `Nat`, `0` being `NULL`;
* `exit(n)` and a failed `assert` end the run: they are outcomes, not values;
* `erl_interface` (the term codec) and `czmq` (the messaging library) are
  outside the repository; they are the fields of `Ext`, and every czmq call is
  appended to the trace `World.calls`;
* what `fprintf(stderr, ...)` prints and the `erl_free*` calls are not part of
  the state.
-/

namespace ErlCzmq

/-! ## Constants (`#define`s of the source) -/

def SUCCESS : Int := 0
def EXIT_OK : Nat := 0
def EXIT_PORT_READ_ERROR : Nat := 253
def EXIT_INTERNAL_ERROR : Nat := 254
def CMD_BUF_SIZE : Nat := 10240
def MAX_SOCKETS : Nat := 999999
def NULL : Nat := 0

/-! ## The two byte streams -/

/-- One future result of `read(0, ..)`: the bytes of a chunk that the peer has
made available, or a failing read. The end of the list is end of stream. -/
inductive ReadEv where
  | chunk (bs : List Nat)
  | fail
  deriving DecidableEq

/-- The output side: the bytes written to descriptor 1 so far, and the results
the coming `write(1, ..)` calls will have: an entry `c > 0` lets at most `c`
bytes through, an entry `c ≤ 0` is a write that fails returning `c`; once the
schedule is used up every write goes through in full. -/
structure Stdout where
  written : List Nat
  sched : List Int
  deriving DecidableEq

/-- The call `read(0, p, count)`: returns the number of bytes read (`0` at end
of stream or for `count = 0`, `-1` on failure), the bytes, and the stream left.
A chunk larger than `count` is split; an empty chunk is skipped. -/
def read : List ReadEv → Nat → Int × List Nat × List ReadEv
  | inp, 0 => (0, [], inp)
  | [], _ + 1 => (0, [], [])
  | ReadEv.fail :: rest, _ + 1 => (-1, [], rest)
  | ReadEv.chunk [] :: rest, n + 1 => read rest (n + 1)
  | ReadEv.chunk (b :: bs) :: rest, n + 1 =>
    if bs.length ≤ n then (((b :: bs).length : Nat), b :: bs, rest)
    else (((n + 1 : Nat) : Int), (b :: bs).take (n + 1), ReadEv.chunk ((b :: bs).drop (n + 1)) :: rest)

/-- The call `write(1, p, count)` with `bs` the `count` bytes at `p`. -/
def write (bs : List Nat) (o : Stdout) : Int × Stdout :=
  if bs = [] then (0, o)
  else match o.sched with
    | [] => ((bs.length : Nat), { o with written := o.written ++ bs })
    | c :: rest =>
      if c ≤ 0 then (c, { o with sched := rest })
      else ((min c.toNat bs.length : Nat),
            { written := o.written ++ bs.take (min c.toNat bs.length), sched := rest })

/-- Storing `bs` into `buf` from offset `off` on (`buf + off` as destination). -/
def blit (buf : List Nat) (off : Nat) (bs : List Nat) : List Nat :=
  buf.take off ++ bs ++ buf.drop (off + bs.length)

/-- The `do .. while (got < len)` loop of `read_exact`. Every pass that goes on
adds at least one byte to `got`, so `len - got + 1` passes are enough; `fuel`
counts the passes left. -/
def read_exact_loop (len : Nat) : Nat → Nat → List Nat → List ReadEv → Int × List Nat × List ReadEv
  | 0, _, buf, inp => ((len : Int), buf, inp)
  | fuel + 1, got, buf, inp =>
    match read inp (len - got) with
    | (i, bs, inp') =>
      if i ≤ 0 then (i, blit buf got bs, inp')
      else
        let got' := got + i.toNat
        if got' < len then read_exact_loop len fuel got' (blit buf got bs) inp'
        else ((len : Int), blit buf got bs, inp')

/-- `read_exact(buf, len)`: result, buffer afterwards, stream left. -/
def read_exact (buf : List Nat) (len : Nat) (inp : List ReadEv) : Int × List Nat × List ReadEv :=
  read_exact_loop len (len + 1) 0 buf inp

/-- The `do .. while (wrote < len)` loop of `write_exact`. -/
def write_exact_loop (buf : List Nat) (len : Nat) : Nat → Nat → Stdout → Int × Stdout
  | 0, _, o => ((len : Int), o)
  | fuel + 1, wrote, o =>
    match write ((buf.drop wrote).take (len - wrote)) o with
    | (i, o') =>
      if i ≤ 0 then (i, o')
      else
        let wrote' := wrote + i.toNat
        if wrote' < len then write_exact_loop buf len fuel wrote' o'
        else ((len : Int), o')

/-- `write_exact(buf, len)`. -/
def write_exact (buf : List Nat) (len : Nat) (o : Stdout) : Int × Stdout :=
  write_exact_loop buf len (len + 1) 0 o

/-- `write_cmd(buf, len)`: the two length bytes, high one first, each through
its own `write_exact` whose result is dropped, then the payload. -/
def write_cmd (buf : List Nat) (len : Nat) (o : Stdout) : Int × Stdout :=
  let li := (len >>> 8) &&& 0xff
  let o1 := (write_exact [li] 1 o).2
  let li := len &&& 0xff
  let o2 := (write_exact [li] 1 o1).2
  write_exact buf len o2

/-! ## Terms, the external libraries, the state of the run -/

/-- An `ETERM` of `erl_interface`, as far as the worker looks into one. -/
inductive ETERM where
  | int (i : Int)
  | atom (a : String)
  | string (s : String)
  | binary (bs : List Nat)
  | tuple (elems : List ETERM)
  | other (tag : Nat)

/-- A call into czmq, with the arguments it was given. -/
inductive Call where
  | zsocket_new (type : Int)
  | zsocket_type_str (socket : Nat)
  | zsocket_bind (socket : Nat) (endpoint : Option String)
  | zsocket_connect (socket : Nat) (endpoint : Option String)
  | zsocket_sendmem (socket : Nat) (data : List Nat) (flags : Int)
  | zsocket_destroy (socket : Nat)
  | zstr_send (socket : Nat) (data : Option String)
  | zstr_recv_nowait (socket : Nat)
  | zframe_recv_nowait (socket : Nat)
  | zframe_destroy
  deriving DecidableEq

/-- What lies outside the repository. The codec of `erl_interface`, the size
of the reply buffer (declared in `erl_czmq.h`), and what each czmq call
returns, given the calls made before it and its arguments. A received frame is
the pair of its bytes (`zframe_data`, `zframe_size`) and its `zframe_more`. -/
structure Ext where
  ERL_CZMQ_REPLY_BUF_SIZE : Int
  erl_term_len : ETERM → Int
  erl_encode : ETERM → List Nat
  erl_decode : List Nat → Option ETERM
  erl_iolist_to_string : Option ETERM → Option String
  int_value_undef : Option ETERM → Int
  bin_undef : Option ETERM → List Nat
  zsocket_new : List Call → Int → Nat
  zsocket_type_str : List Call → Nat → String
  zsocket_bind : List Call → Nat → Option String → Int
  zsocket_connect : List Call → Nat → Option String → Int
  zsocket_sendmem : List Call → Nat → List Nat → Int → Int
  zstr_send : List Call → Nat → Option String → Int
  zstr_recv_nowait : List Call → Nat → Option String
  zframe_recv_nowait : List Call → Nat → Option (List Nat × Int)

/-- Modelled from the spec: the handle table `state->sockets`, a `vector`
whose type and functions (`vector_init`, `vector_get`, `vector_set`) are
declared outside `erl_czmq.c`. A slot array indexed from 0 with capacity
`MAX_SOCKETS`; a slot holds a resource reference or is empty (`NULL`). The list
gives the slots from index 0 on; the slots past its end are empty. -/
abbrev vector := List Nat

/-- Modelled from the spec: `vector_init`, the table with every slot empty. -/
def vector_init : vector := []

/-- Modelled from the spec: lookup; `vector_get` is not in `erl_czmq.c`. The
stored resource if the index is in range and the slot is occupied, `NULL`
otherwise. -/
def vector_get (v : vector) (index : Int) : Nat :=
  if 0 ≤ index ∧ index.toNat < MAX_SOCKETS then v.getD index.toNat NULL else NULL

/-- Modelled from the spec: store into a slot; `vector_set` is not in
`erl_czmq.c`. Stores the resource in the slot of an index in range and leaves
every other slot as it is. -/
def vector_set (v : vector) (index : Int) (e : Nat) : vector :=
  if 0 ≤ index ∧ index.toNat < MAX_SOCKETS then
    if index.toNat < v.length then v.set index.toNat e
    else v ++ List.replicate (index.toNat - v.length) NULL ++ [e]
  else v

/-- The state of a run: the handle table of `erl_czmq_state`, what is still to
come on descriptor 0, descriptor 1, and the czmq calls made so far. -/
structure World where
  sockets : vector
  stdin : List ReadEv
  out : Stdout
  calls : List Call
  deriving DecidableEq

/-- Recording a czmq call. -/
def World.call (w : World) (c : Call) : World :=
  { w with calls := w.calls ++ [c] }

/-- How a piece of the program ends: it returns a value, it calls
`exit(status)`, or an `assert` fails. -/
inductive Outcome (α : Type) where
  | ret (a : α) (w : World)
  | exit (status : Nat) (w : World)
  | abort (w : World)
  deriving DecidableEq

/-- The state in which a piece of the program ended. -/
def Outcome.world {α : Type} : Outcome α → World
  | .ret _ w => w
  | .exit _ w => w
  | .abort w => w

/-- Sequencing: what follows runs only after a return. -/
def Outcome.bind {α β : Type} (o : Outcome α) (f : α → World → Outcome β) : Outcome β :=
  match o with
  | .ret a w => f a w
  | .exit c w => .exit c w
  | .abort w => .abort w

/-! ## The constant terms of `init_eterms` -/

def ETERM_OK : ETERM := .atom "ok"
def ETERM_UNDEFINED : ETERM := .atom "undefined"
def ETERM_TRUE : ETERM := .atom "true"
def ETERM_FALSE : ETERM := .atom "false"
def ETERM_TODO : ETERM := .atom "todo"
def ETERM_PONG : ETERM := .atom "pong"
def ETERM_ERROR : ETERM := .atom "error"
def ETERM_ERROR_INVALID_SOCKET : ETERM := .tuple [.atom "error", .atom "invalid_socket"]
def ETERM_ERROR_BIND_FAILED : ETERM := .tuple [.atom "error", .atom "bind_failed"]
def ETERM_ERROR_CONNECT_FAILED : ETERM := .tuple [.atom "error", .atom "connect_failed"]

/-- The test `erl_match(ETERM_CMD_PATTERN, term)`, the pattern being `{_,_}`:
the term is a tuple of two elements. A `NULL` term does not match. -/
def erl_match_CMD_PATTERN : Option ETERM → Bool
  | some (.tuple [_, _]) => true
  | _ => false

/-! ## Accessors of `erl_interface` -/

def ERL_IS_TUPLE : ETERM → Bool
  | .tuple _ => true
  | _ => false

/-- The number of elements of a tuple; `-1` for a term without a size. -/
def erl_size : ETERM → Int
  | .tuple es => (es.length : Nat)
  | _ => -1

/-- The element at a position counted from 1; `NULL` when there is none. -/
def erl_element (position : Nat) : ETERM → Option ETERM
  | .tuple es => if position = 0 then none else es.get? (position - 1)
  | _ => none

/-- The integer field of a term. Only an integer term has one; on anything
else the macro reads whatever the library says lies there. -/
def ERL_INT_VALUE (x : Ext) : Option ETERM → Int
  | some (.int i) => i
  | t => x.int_value_undef t

/-- The bytes of a binary term (`ERL_BIN_PTR` with `ERL_BIN_SIZE`). -/
def ERL_BIN (x : Ext) : Option ETERM → List Nat
  | some (.binary bs) => bs
  | t => x.bin_undef t

/-- The macro `assert_tuple_size(term, size)`: true when both asserts hold. -/
def assert_tuple_size (term : ETERM) (size : Int) : Bool :=
  ERL_IS_TUPLE term && erl_size term == size

/-! ## Reading a command, writing a reply -/

/-- `read_cmd(max, buf)`: result and buffer afterwards; the stream advances. -/
def read_cmd (max : Int) (buf : List Nat) (w : World) : Outcome (Int × List Nat) :=
  match read_exact buf 2 w.stdin with
  | (r, buf1, inp1) =>
    if r ≠ 2 then .ret (-1, buf1) { w with stdin := inp1 }
    else
      let len : Nat := (buf1.getD 0 0 <<< 8) ||| buf1.getD 1 0
      if (len : Int) > max then .exit EXIT_INTERNAL_ERROR { w with stdin := inp1 }
      else
        match read_exact buf1 len inp1 with
        | (r2, buf2, inp2) => .ret (r2, buf2) { w with stdin := inp2 }

/-- `safe_erl_encode(term, buf_size, buf)`: the encoded length and the bytes
that `erl_encode` has put into the buffer. -/
def safe_erl_encode (x : Ext) (term : ETERM) (buf_size : Int) (w : World) :
    Outcome (Int × List Nat) :=
  let term_len := x.erl_term_len term
  if term_len > buf_size then .exit EXIT_INTERNAL_ERROR w
  else
    let buf := x.erl_encode term
    let encoded_len : Int := (buf.length : Nat)
    if encoded_len ≠ term_len then .exit EXIT_INTERNAL_ERROR w
    else .ret (encoded_len, buf) w

/-- `write_term(term, state)`; the result of `write_cmd` is dropped. -/
def write_term (x : Ext) (term : ETERM) (w : World) : Outcome Unit :=
  (safe_erl_encode x term x.ERL_CZMQ_REPLY_BUF_SIZE w).bind fun r w1 =>
    .ret () { w1 with out := (write_cmd r.2 r.1.toNat w1.out).2 }

/-! ## The handle table -/

/-- The `for (i = 0; i < MAX_SOCKETS; i++)` loop of `save_socket`, `fuel`
being the passes left (`MAX_SOCKETS - i`); falling out of it is `assert(0)`. -/
def save_socket_loop (socket : Nat) (w : World) : Nat → Nat → Outcome Int
  | 0, _ => .abort w
  | fuel + 1, i =>
    if vector_get w.sockets i = NULL then
      .ret (i : Int) { w with sockets := vector_set w.sockets i socket }
    else save_socket_loop socket w fuel (i + 1)

def save_socket (socket : Nat) (w : World) : Outcome Int :=
  save_socket_loop socket w MAX_SOCKETS 0

def get_socket (index : Int) (w : World) : Nat :=
  vector_get w.sockets index

def socket_from_arg (x : Ext) (args : ETERM) (arg_pos : Nat) (w : World) : Nat :=
  let socket_arg := erl_element arg_pos args
  let socket_index := ERL_INT_VALUE x socket_arg
  get_socket socket_index w

/-! ## The command handlers -/

abbrev cmd_handler := ETERM → World → Outcome Unit

def handle_ping (x : Ext) (_args : ETERM) (w : World) : Outcome Unit :=
  write_term x ETERM_PONG w

def handle_zsocket_new (x : Ext) (args : ETERM) (w : World) : Outcome Unit :=
  if !assert_tuple_size args 1 then .abort w
  else
    let type_arg := erl_element 1 args
    let type := ERL_INT_VALUE x type_arg
    let socket := x.zsocket_new w.calls type
    let w1 := w.call (.zsocket_new type)
    if socket = NULL then .abort w1
    else
      (save_socket socket w1).bind fun index w2 =>
        let index_term := ETERM.int index
        write_term x index_term w2

def handle_zsocket_type_str (x : Ext) (args : ETERM) (w : World) : Outcome Unit :=
  if !assert_tuple_size args 1 then .abort w
  else
    let socket := socket_from_arg x args 1 w
    if socket = NULL then write_term x ETERM_ERROR_INVALID_SOCKET w
    else
      let type_str := x.zsocket_type_str w.calls socket
      let reply := ETERM.string type_str
      write_term x reply (w.call (.zsocket_type_str socket))

def handle_zsocket_bind (x : Ext) (args : ETERM) (w : World) : Outcome Unit :=
  if !assert_tuple_size args 2 then .abort w
  else
    let socket := socket_from_arg x args 1 w
    if socket = NULL then write_term x ETERM_ERROR_INVALID_SOCKET w
    else
      let endpoint_arg := erl_element 2 args
      let endpoint := x.erl_iolist_to_string endpoint_arg
      let rc := x.zsocket_bind w.calls socket endpoint
      let w1 := w.call (.zsocket_bind socket endpoint)
      if rc = -1 then write_term x ETERM_ERROR_BIND_FAILED w1
      else
        let result := ETERM.tuple [.atom "ok", .int rc]
        write_term x result w1

def handle_zsocket_connect (x : Ext) (args : ETERM) (w : World) : Outcome Unit :=
  if !assert_tuple_size args 2 then .abort w
  else
    let socket := socket_from_arg x args 1 w
    if socket = NULL then write_term x ETERM_ERROR_INVALID_SOCKET w
    else
      let endpoint_arg := erl_element 2 args
      let endpoint := x.erl_iolist_to_string endpoint_arg
      let rc := x.zsocket_connect w.calls socket endpoint
      let w1 := w.call (.zsocket_connect socket endpoint)
      if rc = -1 then write_term x ETERM_ERROR_CONNECT_FAILED w1
      else write_term x ETERM_OK w1

def handle_zsocket_sendmem (x : Ext) (args : ETERM) (w : World) : Outcome Unit :=
  if !assert_tuple_size args 3 then .abort w
  else
    let socket := socket_from_arg x args 1 w
    if socket = NULL then write_term x ETERM_ERROR_INVALID_SOCKET w
    else
      let data_bin_arg := erl_element 2 args
      let data_bin := ERL_BIN x data_bin_arg
      let flags_arg := erl_element 3 args
      let flags := ERL_INT_VALUE x flags_arg
      let rc := x.zsocket_sendmem w.calls socket data_bin flags
      let w1 := w.call (.zsocket_sendmem socket data_bin flags)
      if rc = 0 then write_term x ETERM_OK w1
      else write_term x ETERM_ERROR w1

def handle_zsocket_destroy (x : Ext) (args : ETERM) (w : World) : Outcome Unit :=
  if !assert_tuple_size args 1 then .abort w
  else
    let socket := socket_from_arg x args 1 w
    if socket = NULL then write_term x ETERM_ERROR_INVALID_SOCKET w
    else
      write_term x ETERM_OK (w.call (.zsocket_destroy socket))

/-- The result of `zstr_send` is not kept: the call is made, then `ok` is
written. -/
def handle_zstr_send (x : Ext) (args : ETERM) (w : World) : Outcome Unit :=
  if !assert_tuple_size args 2 then .abort w
  else
    let socket := socket_from_arg x args 1 w
    if socket = NULL then write_term x ETERM_ERROR_INVALID_SOCKET w
    else
      let data_arg := erl_element 2 args
      let data := x.erl_iolist_to_string data_arg
      write_term x ETERM_OK (w.call (.zstr_send socket data))

def handle_zstr_recv_nowait (x : Ext) (args : ETERM) (w : World) : Outcome Unit :=
  if !assert_tuple_size args 1 then .abort w
  else
    let socket := socket_from_arg x args 1 w
    if socket = NULL then write_term x ETERM_ERROR_INVALID_SOCKET w
    else
      let data := x.zstr_recv_nowait w.calls socket
      let w1 := w.call (.zstr_recv_nowait socket)
      match data with
      | none => write_term x ETERM_ERROR w1
      | some d =>
        let result := ETERM.tuple [.atom "ok", .string d]
        write_term x result w1

def handle_zframe_recv_nowait (x : Ext) (args : ETERM) (w : World) : Outcome Unit :=
  if !assert_tuple_size args 1 then .abort w
  else
    let socket := socket_from_arg x args 1 w
    if socket = NULL then write_term x ETERM_ERROR_INVALID_SOCKET w
    else
      let frame := x.zframe_recv_nowait w.calls socket
      let w1 := w.call (.zframe_recv_nowait socket)
      match frame with
      | none => write_term x ETERM_ERROR w1
      | some (frame_data, more) =>
        let data_bin := ETERM.binary frame_data
        let more_boolean := if more ≠ 0 then ETERM_TRUE else ETERM_FALSE
        let result := ETERM.tuple [.atom "ok", .tuple [data_bin, more_boolean]]
        (write_term x result w1).bind fun _ w2 => .ret () (w2.call .zframe_destroy)

/-! ## Dispatch and the main loop -/

/-- `handle_cmd(buf, state, handler_count, handlers)`. Indexing `handlers`
past its end has no meaning in C; `erl_czmq_loop` passes ten handlers with
`handler_count = 10`, so the range check rules it out and it is an `abort`
here. -/
def handle_cmd (x : Ext) (buf : List Nat) (w : World) (handler_count : Int)
    (handlers : List cmd_handler) : Outcome Unit :=
  let cmd_term := x.erl_decode buf
  if !erl_match_CMD_PATTERN cmd_term then .exit EXIT_INTERNAL_ERROR w
  else
    let cmd_id_term := cmd_term.bind (erl_element 1)
    let cmd_id := ERL_INT_VALUE x cmd_id_term
    if cmd_id < 0 ∨ cmd_id ≥ handler_count then .exit EXIT_INTERNAL_ERROR w
    else
      let cmd_args_term := cmd_term.bind (erl_element 2)
      match handlers[cmd_id.toNat]?, cmd_args_term with
      | some h, some args => h args w
      | _, _ => .abort w

def HANDLER_COUNT : Int := 10

/-- The array `handlers` that `erl_czmq_loop` fills in. -/
def handlers (x : Ext) : List cmd_handler :=
  [handle_ping x, handle_zsocket_new x, handle_zsocket_type_str x, handle_zsocket_bind x,
   handle_zsocket_connect x, handle_zsocket_sendmem x, handle_zsocket_destroy x,
   handle_zstr_send x, handle_zstr_recv_nowait x, handle_zframe_recv_nowait x]

/-- `erl_czmq_loop(state)`: the `while (1)` loop, `fuel` bounding the number of
frames handled; `none` when the fuel runs out before the process has ended. -/
def erl_czmq_loop (x : Ext) : Nat → List Nat → World → Option (Outcome Unit)
  | 0, _, _ => none
  | fuel + 1, cmd_buf, w =>
    match read_cmd CMD_BUF_SIZE cmd_buf w with
    | .exit c w1 => some (.exit c w1)
    | .abort w1 => some (.abort w1)
    | .ret (cmd_len, cmd_buf1) w1 =>
      if cmd_len = 0 then some (.exit EXIT_OK w1)
      else if cmd_len < 0 then some (.exit EXIT_PORT_READ_ERROR w1)
      else
        match handle_cmd x cmd_buf1 w1 HANDLER_COUNT (handlers x) with
        | .ret _ w2 => erl_czmq_loop x fuel cmd_buf1 w2
        | .exit c w2 => some (.exit c w2)
        | .abort w2 => some (.abort w2)

/-! ## Notions used to state the properties -/

/-- The bytes the stream delivers before it ends or a read fails. -/
def available : List ReadEv → List Nat
  | [] => []
  | ReadEv.fail :: _ => []
  | ReadEv.chunk bs :: rest => bs ++ available rest

/-- No write of the schedule fails. -/
def no_fail (o : Stdout) : Prop := ∀ c ∈ o.sched, 0 < c

instance instDecidableNoFail (o : Stdout) : Decidable (no_fail o) := by
  unfold no_fail
  infer_instance

/-- A table with slots 0 and 2 occupied and slot 1 empty. -/
def w_table : World := ⟨[5, 0, 7], [], ⟨[], []⟩, []⟩

/-- The arity of the args tuple of each command, as the command table gives
it (and as the `assert_tuple_size` of each handler checks it). -/
def args_arity : Nat → Nat
  | 0 => 0
  | 1 => 1
  | 2 => 1
  | 3 => 2
  | 4 => 2
  | 5 => 3
  | 6 => 1
  | 7 => 2
  | 8 => 1
  | 9 => 1
  | _ => 0

/-- The command table, id to operation: liveness check, create, describe,
bind, connect, send bytes, destroy, send string, receive string, receive
framed binary. -/
def command_table (x : Ext) : Nat → Option cmd_handler
  | 0 => some (handle_ping x)
  | 1 => some (handle_zsocket_new x)
  | 2 => some (handle_zsocket_type_str x)
  | 3 => some (handle_zsocket_bind x)
  | 4 => some (handle_zsocket_connect x)
  | 5 => some (handle_zsocket_sendmem x)
  | 6 => some (handle_zsocket_destroy x)
  | 7 => some (handle_zstr_send x)
  | 8 => some (handle_zstr_recv_nowait x)
  | 9 => some (handle_zframe_recv_nowait x)
  | _ => none

/-- The codec encodes the term within the reply buffer, and `erl_encode`
returns the length `erl_term_len` announced. -/
def encodes (x : Ext) (t : ETERM) : Prop :=
  x.erl_term_len t ≤ x.ERL_CZMQ_REPLY_BUF_SIZE ∧
    (((x.erl_encode t).length : Nat) : Int) = x.erl_term_len t

instance instDecidableEncodes (x : Ext) (t : ETERM) : Decidable (encodes x t) := by
  unfold encodes
  infer_instance

mutual
/-- A small concrete term encoding, for evaluating the worker on examples. -/
def demo_encode : ETERM → List Nat
  | .int i => [98, (i % 256).toNat]
  | .atom a => 100 :: a.length :: a.toList.map Char.toNat
  | .string s => 107 :: s.length :: s.toList.map Char.toNat
  | .binary bs => 109 :: bs.length :: bs
  | .tuple es => 104 :: es.length :: demo_encode_list es
  | .other t => [t]
/-- The encodings of the elements of a tuple, one after the other. -/
def demo_encode_list : List ETERM → List Nat
  | [] => []
  | e :: es => demo_encode e ++ demo_encode_list es
end

/-- A concrete environment for examples: the encoding above; a decoder that
reads the command id from the first byte and a one-element args tuple holding
the integer of the second byte; czmq calls that succeed. -/
def demoExt : Ext where
  ERL_CZMQ_REPLY_BUF_SIZE := 10240
  erl_term_len := fun t => ((demo_encode t).length : Nat)
  erl_encode := demo_encode
  erl_decode := fun buf =>
    match buf with
    | id :: h :: _ => some (.tuple [.int id, .tuple [.int h]])
    | _ => none
  erl_iolist_to_string := fun t =>
    match t with
    | some (.string s) => some s
    | _ => none
  int_value_undef := fun _ => 0
  bin_undef := fun _ => []
  zsocket_new := fun cs _ => cs.length + 1
  zsocket_type_str := fun _ _ => "PAIR"
  zsocket_bind := fun _ _ _ => 0
  zsocket_connect := fun _ _ _ => 0
  zsocket_sendmem := fun _ _ _ _ => 0
  zstr_send := fun _ _ _ => 0
  zstr_recv_nowait := fun _ _ => none
  zframe_recv_nowait := fun _ _ => none

/-- The environment of the examples with `zsocket_bind` and `zsocket_connect`
returning `rc`. -/
def ext_rc (rc : Int) : Ext :=
  { demoExt with zsocket_bind := fun _ _ _ => rc, zsocket_connect := fun _ _ _ => rc }

/-- The environment of the examples with a `zstr_send` and a
`zsocket_sendmem` that fail. -/
def ext_send_fails : Ext :=
  { demoExt with zstr_send := fun _ _ _ => -1, zsocket_sendmem := fun _ _ _ _ => -1 }

/-- The state after destroying handle 0 of `w_table` in the environment of the
examples: the reply `ok` written, the call recorded, the table as it was. -/
def w_destroyed : World :=
  ⟨[5, 0, 7], [], ⟨[0, 4, 100, 2, 111, 107], []⟩, [.zsocket_destroy 5]⟩

/-- A state whose input delivers, in three chunks, a frame of three bytes and
one byte more. -/
def w_frame : World :=
  ⟨[], [.chunk [0], .chunk [3, 65], .chunk [66, 67, 0]], ⟨[], []⟩, []⟩

/-- A state whose input announces a frame of `40 * 256 + 1 = 10241` bytes. -/
def w_oversized : World :=
  ⟨[5], [.chunk [40], .chunk [1, 7, 7]], ⟨[], []⟩, []⟩

/-- The socket a czmq call was made on, if it takes one. -/
def Call.socket : Call → Option Nat
  | .zsocket_new _ => none
  | .zsocket_type_str s => some s
  | .zsocket_bind s _ => some s
  | .zsocket_connect s _ => some s
  | .zsocket_sendmem s _ _ => some s
  | .zsocket_destroy s => some s
  | .zstr_send s _ => some s
  | .zstr_recv_nowait s => some s
  | .zframe_recv_nowait s => some s
  | .zframe_destroy => none

/-- The outcome `o` is that of replying with the term `t` from the state `w1`:
`write_term(t, state)`, after which a handler does nothing more, or (after a
received frame) makes the one call `zframe_destroy`. -/
def is_reply (x : Ext) (w1 : World) (t : ETERM) (o : Outcome Unit) : Prop :=
  o = write_term x t w1 ∨
    o = (write_term x t w1).bind fun _ w2 => .ret () (w2.call .zframe_destroy)

/-- What replying with the term `t` from the state `w1` comes to. If the codec
does not encode `t` within the reply buffer the process exits with
`EXIT_INTERNAL_ERROR`, nothing written. Otherwise the handler returns, after
exactly one `write_cmd` of the encoding of `t`: the handle table and the input
are as in `w1`; the bytes added to the output are a part of the first length
byte, a part of the second and a part of the encoding, in this order, so never
more than one frame; and they are exactly the frame of `t` (length bytes, high
one first, then the encoding) when no write fails. -/
def replies_with (x : Ext) (w1 : World) (t : ETERM) (o : Outcome Unit) : Prop :=
  (¬ encodes x t → o = .exit EXIT_INTERNAL_ERROR w1) ∧
  (encodes x t → ∃ w', o = .ret () w' ∧ w'.sockets = w1.sockets ∧ w'.stdin = w1.stdin ∧
    (w'.calls = w1.calls ∨ w'.calls = w1.calls ++ [.zframe_destroy]) ∧
    w'.out = (write_cmd (x.erl_encode t) (x.erl_encode t).length w1.out).2 ∧
    (∃ p1 p2 p3, p1 <+: [(x.erl_encode t).length / 256 % 256] ∧
      p2 <+: [(x.erl_encode t).length % 256] ∧ p3 <+: x.erl_encode t ∧
      w'.out.written = w1.out.written ++ p1 ++ p2 ++ p3) ∧
    (no_fail w1.out → w'.out.written = w1.out.written ++
      [(x.erl_encode t).length / 256 % 256, (x.erl_encode t).length % 256] ++ x.erl_encode t))

/-- The table of `w_table` with an output on which the next three writes
fail. -/
def w_write_fails : World := ⟨[5, 0, 7], [], ⟨[], [-1, -1, -1]⟩, []⟩

/-! ## Facts about the byte streams -/

theorem read_available (inp : List ReadEv) (n : Nat) (hn : 0 < n) (hav : available inp ≠ []) :
    (read inp n).1 = ((read inp n).2.1.length : Nat) ∧ 0 < (read inp n).2.1.length ∧
      (read inp n).2.1.length ≤ n ∧
      available inp = (read inp n).2.1 ++ available (read inp n).2.2 := by
  obtain ⟨m, rfl⟩ : ∃ m, n = m + 1 := ⟨n - 1, by omega⟩
  induction inp with
  | nil => simp [available] at hav
  | cons e rest ih =>
    cases e with
    | fail => simp [available] at hav
    | chunk bs =>
      cases bs with
      | nil =>
        have hav' : available rest ≠ [] := by simpa [available] using hav
        simpa [read, available] using ih hav'
      | cons b bs =>
        by_cases hle : bs.length ≤ m
        · simp [read, hle, available]
        · have hlt : m < bs.length := by omega
          simp only [read, hle, if_false, available]
          refine ⟨by simp; omega, by simp, by simp, ?_⟩
          rw [← List.append_assoc, List.take_append_drop]

theorem blit_blit (buf : List Nat) (off : Nat) (bs ds : List Nat) (h : off ≤ buf.length) :
    blit (blit buf off bs) (off + bs.length) ds = blit buf off (bs ++ ds) := by
  have h1 : (buf.take off).length = off := by simp [h]
  have h2 : (buf.take off ++ bs).length = off + bs.length := by simp [h1]
  unfold blit
  rw [List.take_append_of_le_length (by rw [h2]), ← h2, List.take_length]
  rw [h2, show off + bs.length + ds.length = (buf.take off ++ bs).length + ds.length by rw [h2],
    List.drop_append, List.drop_drop, List.length_append]
  simp [List.append_assoc, Nat.add_assoc]

theorem blit_length_ge (buf : List Nat) (off : Nat) (bs : List Nat) (h : off ≤ buf.length) :
    off + bs.length ≤ (blit buf off bs).length := by
  simp [blit, h]

theorem split_at_length (data rest bs tail : List Nat) (h : data ++ rest = bs ++ tail)
    (hle : bs.length ≤ data.length) :
    data = bs ++ data.drop bs.length ∧ tail = data.drop bs.length ++ rest := by
  have h1 := congrArg (List.take bs.length) h
  have h2 := congrArg (List.drop bs.length) h
  rw [List.take_append_of_le_length hle, List.take_left] at h1
  rw [List.drop_append_of_le_length hle, List.drop_left] at h2
  refine ⟨?_, h2.symm⟩
  conv_lhs => rw [← List.take_append_drop bs.length data, h1]

theorem read_exact_loop_full (len : Nat) :
    ∀ (fuel got : Nat) (buf : List Nat) (inp : List ReadEv) (data rest : List Nat),
      available inp = data ++ rest → got + data.length = len → data ≠ [] →
      got ≤ buf.length → data.length ≤ fuel →
      ∃ inp', read_exact_loop len fuel got buf inp = ((len : Int), blit buf got data, inp') ∧
        available inp' = rest := by
  intro fuel
  induction fuel with
  | zero =>
    intro got buf inp data rest _ _ hne _ hf
    cases data <;> simp_all
  | succ fuel ih =>
    intro got buf inp data rest hav hlen hne hgot hf
    have hdpos : 0 < data.length := List.length_pos.mpr hne
    have hpos : 0 < len - got := by omega
    have havne : available inp ≠ [] := by rw [hav]; simp [hne]
    obtain ⟨h1, h2, h3, h4⟩ := read_available inp (len - got) hpos havne
    unfold read_exact_loop
    generalize read inp (len - got) = r at h1 h2 h3 h4
    obtain ⟨i, bs, inp1⟩ := r
    simp only at h1 h2 h3 h4 ⊢
    subst h1
    rw [hav] at h4
    obtain ⟨hd, htl⟩ := split_at_length data rest bs (available inp1) h4 (by omega)
    have hi : ¬ ((bs.length : Nat) : Int) ≤ 0 := by omega
    simp only [hi, if_false, Int.toNat_ofNat]
    by_cases hlt : got + bs.length < len
    · simp only [hlt, if_true]
      have hne' : data.drop bs.length ≠ [] := by
        intro h0
        have := congrArg List.length h0
        simp at this
        omega
      obtain ⟨inp', he, ha⟩ := ih (got + bs.length) (blit buf got bs) inp1 (data.drop bs.length) rest
        htl (by simp; omega) hne' (by have := blit_length_ge buf got bs hgot; omega)
        (by simp; omega)
      refine ⟨inp', ?_, ha⟩
      rw [he, blit_blit buf got bs _ hgot, ← hd]
    · simp only [hlt, if_false]
      have h0 : data.drop bs.length = [] := by
        apply List.drop_eq_nil_of_le
        omega
      rw [h0] at hd htl
      simp at hd htl
      exact ⟨inp1, by rw [hd], htl⟩

theorem read_exact_full (buf : List Nat) (inp : List ReadEv) (data rest : List Nat)
    (hav : available inp = data ++ rest) (hne : data ≠ []) :
    ∃ inp', read_exact buf data.length inp = (((data.length : Nat) : Int), data ++ buf.drop data.length, inp') ∧
      available inp' = rest := by
  obtain ⟨inp', he, ha⟩ := read_exact_loop_full data.length (data.length + 1) 0 buf inp data rest
    hav (by simp) hne (by simp) (by simp)
  exact ⟨inp', by simpa [read_exact, blit] using he, ha⟩

theorem read_exact_zero (buf : List Nat) (inp : List ReadEv) :
    read_exact buf 0 inp = (0, buf, inp) := by
  cases inp <;> simp [read_exact, read_exact_loop, read, blit]

theorem length_bytes_value (b0 b1 : Nat) (h1 : b1 < 256) : (b0 <<< 8) ||| b1 = b0 * 256 + b1 := by
  have := Nat.mul_add_lt_is_or (show b1 < 2 ^ 8 by omega) b0
  rw [Nat.shiftLeft_eq, Nat.mul_comm, ← this]

theorem length_bytes (len : Nat) :
    (len >>> 8) &&& 0xff = len / 256 % 256 ∧ len &&& 0xff = len % 256 := by
  have h := Nat.and_pow_two_sub_one_eq_mod
  have e : (0xff : Nat) = 2 ^ 8 - 1 := by norm_num
  rw [e, h, h, Nat.shiftRight_eq_div_pow]
  norm_num

theorem write_ok (bs : List Nat) (o : Stdout) (hne : bs ≠ []) (h : no_fail o) :
    ∃ k, 0 < k ∧ k ≤ bs.length ∧ (write bs o).1 = ((k : Nat) : Int) ∧
      (write bs o).2.written = o.written ++ bs.take k ∧ no_fail (write bs o).2 := by
  have hpos : 0 < bs.length := List.length_pos.mpr hne
  obtain ⟨written, sched⟩ := o
  cases sched with
  | nil => exact ⟨bs.length, hpos, le_refl _, by simp [write, hne], by simp [write, hne], by simpa [write, hne] using h⟩
  | cons c rest =>
    have hc : 0 < c := h c (by simp)
    have hc' : ¬ c ≤ 0 := by omega
    refine ⟨min c.toNat bs.length, by omega, by omega, by simp [write, hne, hc'], by simp [write, hne, hc'], ?_⟩
    intro d hd
    apply h d
    simp [write, hne, hc'] at hd
    simp [hd]

theorem write_exact_loop_full (buf : List Nat) (len : Nat) (hlen : len ≤ buf.length) :
    ∀ (fuel wrote : Nat) (o : Stdout), no_fail o → wrote < len → len - wrote ≤ fuel →
      (write_exact_loop buf len fuel wrote o).1 = ((len : Nat) : Int) ∧
      (write_exact_loop buf len fuel wrote o).2.written =
        o.written ++ (buf.drop wrote).take (len - wrote) ∧
      no_fail (write_exact_loop buf len fuel wrote o).2 := by
  intro fuel
  induction fuel with
  | zero => intro wrote o _ h1 h2; omega
  | succ fuel ih =>
    intro wrote o hnf hlt hf
    have hbl : ((buf.drop wrote).take (len - wrote)).length = len - wrote := by
      simp; omega
    have hne : (buf.drop wrote).take (len - wrote) ≠ [] := by
      intro h0; rw [h0] at hbl; simp at hbl; omega
    obtain ⟨k, hk0, hk1, hk2, hk3, hk4⟩ := write_ok _ o hne hnf
    rw [hbl] at hk1
    unfold write_exact_loop
    generalize write ((buf.drop wrote).take (len - wrote)) o = r at hk2 hk3 hk4
    obtain ⟨i, o1⟩ := r
    simp only at hk2 hk3 hk4 ⊢
    subst hk2
    have hi : ¬ ((k : Nat) : Int) ≤ 0 := by omega
    simp only [hi, if_false, Int.toNat_ofNat]
    by_cases hw : wrote + k < len
    · simp only [hw, if_true]
      obtain ⟨e1, e2, e3⟩ := ih (wrote + k) o1 hk4 hw (by omega)
      refine ⟨e1, ?_, e3⟩
      rw [e2, hk3, List.append_assoc, List.take_take, Nat.min_eq_left hk1]
      congr 1
      have : len - wrote = k + (len - (wrote + k)) := by omega
      conv_rhs => rw [this, List.take_add, List.drop_drop]
    · simp only [hw, if_false]
      refine ⟨trivial, ?_, hk4⟩
      rw [hk3, List.take_take]
      congr 2
      omega

theorem write_exact_full (buf : List Nat) (len : Nat) (hlen : len ≤ buf.length) (o : Stdout)
    (hnf : no_fail o) :
    (write_exact buf len o).1 = ((len : Nat) : Int) ∧
      (write_exact buf len o).2.written = o.written ++ buf.take len ∧
      no_fail (write_exact buf len o).2 := by
  by_cases h0 : len = 0
  · subst h0
    simp [write_exact, write_exact_loop, write, hnf]
  · simpa using write_exact_loop_full buf len hlen (len + 1) 0 o hnf (by omega) (by omega)

theorem write_cmd_full (buf : List Nat) (len : Nat) (hlen : len ≤ buf.length) (o : Stdout)
    (hnf : no_fail o) :
    (write_cmd buf len o).1 = ((len : Nat) : Int) ∧
      (write_cmd buf len o).2.written = o.written ++ [len / 256 % 256, len % 256] ++ buf.take len ∧
      no_fail (write_cmd buf len o).2 := by
  unfold write_cmd
  obtain ⟨p1, p2⟩ := length_bytes len
  simp only [p1, p2]
  obtain ⟨_, a2, a3⟩ := write_exact_full [len / 256 % 256] 1 (by simp) o hnf
  obtain ⟨_, b2, b3⟩ := write_exact_full [len % 256] 1 (by simp) _ a3
  obtain ⟨c1, c2, c3⟩ := write_exact_full buf len hlen _ b3
  refine ⟨c1, ?_, c3⟩
  rw [c2, b2, a2]
  simp

theorem read_cmd_after_length (max : Int) (buf : List Nat) (w : World) (b0 b1 : Nat) (rest : List Nat)
    (hin : available w.stdin = b0 :: b1 :: rest) :
    ∃ inp1, available inp1 = rest ∧
      read_cmd max buf w =
        if (((b0 <<< 8) ||| b1 : Nat) : Int) > max then
          .exit EXIT_INTERNAL_ERROR { w with stdin := inp1 }
        else
          .ret ((read_exact (b0 :: b1 :: buf.drop 2) ((b0 <<< 8) ||| b1) inp1).1,
                (read_exact (b0 :: b1 :: buf.drop 2) ((b0 <<< 8) ||| b1) inp1).2.1)
            { w with stdin := (read_exact (b0 :: b1 :: buf.drop 2) ((b0 <<< 8) ||| b1) inp1).2.2 } := by
  obtain ⟨inp1, he, ha⟩ := read_exact_full buf w.stdin [b0, b1] rest (by simpa using hin) (by simp)
  refine ⟨inp1, ha, ?_⟩
  simp only [List.length_cons, List.length_nil] at he
  unfold read_cmd
  simp [he]

/-- Claim C3 (frame round trip): the bytes `write_cmd` emits for a payload of at most
`CMD_BUF_SIZE` bytes, when no write fails, are the two length bytes (high one
first) followed by the payload; and `read_cmd`, reading them from a stream that
delivers them in any chunks, returns the length of the payload and leaves the
payload at the start of the buffer, having consumed exactly that frame. -/
theorem frame_round_trip (payload : List Nat) (hlen : payload.length ≤ CMD_BUF_SIZE)
    (o : Stdout) (hnf : no_fail o) (buf : List Nat) (w : World) (rest : List Nat)
    (hin : available w.stdin =
      (write_cmd payload payload.length o).2.written.drop o.written.length ++ rest) :
    (write_cmd payload payload.length o).2.written =
        o.written ++ [payload.length / 256 % 256, payload.length % 256] ++ payload ∧
      ∃ buf' inp', read_cmd CMD_BUF_SIZE buf w =
          .ret (((payload.length : Nat) : Int), buf') { w with stdin := inp' } ∧
        buf'.take payload.length = payload ∧ available inp' = rest := by
  obtain ⟨_, hw, _⟩ := write_cmd_full payload payload.length (le_refl _) o hnf
  rw [List.take_length] at hw
  refine ⟨hw, ?_⟩
  rw [hw, List.append_assoc, List.drop_left] at hin
  have hlen' : payload.length ≤ 10240 := hlen
  obtain ⟨inp1, ha, he⟩ := read_cmd_after_length CMD_BUF_SIZE buf w _ _ (payload ++ rest)
    (by simpa using hin)
  have hv : (payload.length / 256 % 256) <<< 8 ||| payload.length % 256 = payload.length := by
    rw [length_bytes_value _ _ (Nat.mod_lt _ (by norm_num))]
    omega
  rw [hv] at he
  have hmax : ¬ ((payload.length : Nat) : Int) > ((CMD_BUF_SIZE : Nat) : Int) := by
    simp [CMD_BUF_SIZE]; omega
  rw [if_neg hmax] at he
  by_cases h0 : payload = []
  · subst h0
    rw [he]
    simp only [List.length_nil, read_exact_zero]
    exact ⟨_, inp1, rfl, rfl, by simpa using ha⟩
  · obtain ⟨inp2, hr, ha2⟩ := read_exact_full
      (payload.length / 256 % 256 :: payload.length % 256 :: buf.drop 2) inp1 payload rest ha h0
    rw [he, hr]
    exact ⟨_, inp2, rfl, by simp, ha2⟩

theorem frame_round_trip_witness :
    (([65, 66, 67] : List Nat).length ≤ CMD_BUF_SIZE ∧ no_fail ⟨[], [1, 2]⟩ ∧
      available w_frame.stdin =
        (write_cmd [65, 66, 67] ([65, 66, 67] : List Nat).length ⟨[], [1, 2]⟩).2.written.drop
          (⟨[], [1, 2]⟩ : Stdout).written.length ++ [0]) ∧
    ((write_cmd [65, 66, 67] ([65, 66, 67] : List Nat).length ⟨[], [1, 2]⟩).2.written =
        (⟨[], [1, 2]⟩ : Stdout).written ++
          [([65, 66, 67] : List Nat).length / 256 % 256, ([65, 66, 67] : List Nat).length % 256] ++
          [65, 66, 67] ∧
      ∃ buf' inp', read_cmd CMD_BUF_SIZE [9, 9, 9, 9, 9, 9] w_frame =
          .ret (((([65, 66, 67] : List Nat).length : Nat) : Int), buf')
            { w_frame with stdin := inp' } ∧
        buf'.take ([65, 66, 67] : List Nat).length = [65, 66, 67] ∧ available inp' = [0]) :=
  ⟨⟨by decide, by decide, by decide⟩,
    frame_round_trip [65, 66, 67] (by decide) ⟨[], [1, 2]⟩ (by decide) [9, 9, 9, 9, 9, 9]
      w_frame [0] (by decide)⟩

/-- Claim C6 (oversized frame): when the stream delivers a length prefix `b0 b1`
whose big-endian value `b0 * 256 + b1` exceeds `CMD_BUF_SIZE`, `read_cmd` ends
the process with `EXIT_INTERNAL_ERROR`, having consumed the two prefix bytes
only; the loop then ends with that status with the output, the handle table
and the trace of foreign calls untouched. For a value within the maximum
`read_cmd` returns to its caller. -/
theorem oversized_frame_is_fatal (b0 b1 : Nat) (hb1 : b1 < 256) (buf : List Nat) (w : World)
    (rest : List Nat) (hin : available w.stdin = b0 :: b1 :: rest) :
    (CMD_BUF_SIZE < b0 * 256 + b1 →
      ∃ inp1, available inp1 = rest ∧
        read_cmd CMD_BUF_SIZE buf w = .exit EXIT_INTERNAL_ERROR { w with stdin := inp1 } ∧
        ∀ (x : Ext) (fuel : Nat), erl_czmq_loop x (fuel + 1) buf w =
          some (.exit EXIT_INTERNAL_ERROR { w with stdin := inp1 })) ∧
    (b0 * 256 + b1 ≤ CMD_BUF_SIZE → ∃ r w1, read_cmd CMD_BUF_SIZE buf w = .ret r w1) := by
  obtain ⟨inp1, ha, he⟩ := read_cmd_after_length CMD_BUF_SIZE buf w b0 b1 rest hin
  rw [length_bytes_value b0 b1 hb1] at he
  constructor
  · intro hbig
    have hgt : (((b0 * 256 + b1 : Nat) : Int)) > ((CMD_BUF_SIZE : Nat) : Int) := by
      exact_mod_cast hbig
    rw [if_pos hgt] at he
    refine ⟨inp1, ha, he, ?_⟩
    intro x fuel
    simp [erl_czmq_loop, he]
  · intro hsmall
    have hgt : ¬ (((b0 * 256 + b1 : Nat) : Int)) > ((CMD_BUF_SIZE : Nat) : Int) := by
      have : ((b0 * 256 + b1 : Nat) : Int) ≤ ((CMD_BUF_SIZE : Nat) : Int) := by exact_mod_cast hsmall
      omega
    rw [if_neg hgt] at he
    exact ⟨_, _, he⟩

theorem oversized_frame_is_fatal_witness :
    ((1 : Nat) < 256 ∧ available w_oversized.stdin = 40 :: 1 :: [7, 7]) ∧
    ((CMD_BUF_SIZE < 40 * 256 + 1 →
      ∃ inp1, available inp1 = [7, 7] ∧
        read_cmd CMD_BUF_SIZE [0, 0, 0] w_oversized =
          .exit EXIT_INTERNAL_ERROR { w_oversized with stdin := inp1 } ∧
        ∀ (x : Ext) (fuel : Nat),
          erl_czmq_loop x (fuel + 1) [0, 0, 0] w_oversized =
            some (.exit EXIT_INTERNAL_ERROR { w_oversized with stdin := inp1 })) ∧
    (40 * 256 + 1 ≤ CMD_BUF_SIZE →
      ∃ r w1, read_cmd CMD_BUF_SIZE [0, 0, 0] w_oversized = .ret r w1)) :=
  ⟨⟨by decide, by decide⟩,
    oversized_frame_is_fatal 40 1 (by decide) [0, 0, 0] w_oversized [7, 7] (by decide)⟩

/-- Claim C7 (exit status at end of stream), evaluated on the code: when the
stream stops at a frame boundary, before any byte of the next frame, the loop exits
with `EXIT_PORT_READ_ERROR` (253), not with `EXIT_OK`; and when it ends inside
a payload (here after one byte of a frame announced as five bytes long) the
loop exits with `EXIT_OK` (0), not with 253. -/
theorem eof_exit_status (x : Ext) (fuel : Nat) (buf : List Nat) (sockets : vector)
    (out : Stdout) (calls : List Call) :
    erl_czmq_loop x (fuel + 1) buf ⟨sockets, [], out, calls⟩ =
        some (.exit EXIT_PORT_READ_ERROR ⟨sockets, [], out, calls⟩) ∧
      erl_czmq_loop x (fuel + 1) buf ⟨sockets, [.chunk [0, 5, 65]], out, calls⟩ =
        some (.exit EXIT_OK ⟨sockets, [], out, calls⟩) := by
  constructor
  · simp [erl_czmq_loop, read_cmd, read_exact, read_exact_loop, read, blit]
  · simp [erl_czmq_loop, read_cmd, read_exact, read_exact_loop, read, blit, CMD_BUF_SIZE]

/-! ## Facts about the handle table -/

theorem vector_set_in_range (v : vector) (i : Nat) (hi : i < MAX_SOCKETS) (e : Nat) :
    vector_set v i e =
      if i < v.length then v.set i e else v ++ List.replicate (i - v.length) NULL ++ [e] := by
  simp [vector_set, hi]

theorem vector_set_out_of_range (v : vector) (i : Nat) (hi : ¬ i < MAX_SOCKETS) (e : Nat) :
    vector_set v i e = v := by
  simp [vector_set, hi]

theorem vector_get_in_range (v : vector) (j : Int) (hj : 0 ≤ j ∧ j.toNat < MAX_SOCKETS) :
    vector_get v j = (v[j.toNat]?).getD NULL := by
  simp [vector_get, hj, List.getD_eq_getElem?_getD]

theorem vector_get_set_eq (v : vector) (i : Nat) (hi : i < MAX_SOCKETS) (e : Nat) :
    vector_get (vector_set v i e) i = e := by
  rw [vector_get_in_range _ _ ⟨by omega, by simpa using hi⟩, vector_set_in_range v i hi,
    Int.toNat_ofNat]
  by_cases hlt : i < v.length
  · simp [hlt]
  · simp only [hlt, if_false]
    have hlen : (v ++ List.replicate (i - v.length) NULL).length = i := by simp; omega
    rw [List.getElem?_append_right (by rw [hlen]), hlen]
    simp

theorem vector_get_set_ne (v : vector) (i : Nat) (j : Int) (hne : j ≠ (i : Int)) (e : Nat) :
    vector_get (vector_set v i e) j = vector_get v j := by
  by_cases hi : i < MAX_SOCKETS
  · by_cases hj : 0 ≤ j ∧ j.toNat < MAX_SOCKETS
    · have hm : j.toNat ≠ i := by omega
      rw [vector_get_in_range _ _ hj, vector_get_in_range _ _ hj, vector_set_in_range v i hi]
      by_cases hlt : i < v.length
      · simp only [hlt, if_true]
        rw [List.getElem?_set_ne (Ne.symm hm)]
      · simp only [hlt, if_false]
        by_cases h1 : j.toNat < v.length
        · rw [List.append_assoc, List.getElem?_append_left h1]
        · have h2 : v[j.toNat]? = none := List.getElem?_eq_none (by omega)
          rw [h2]
          by_cases h3 : j.toNat < i
          · rw [List.getElem?_append_left (by simp; omega),
              List.getElem?_append_right (by omega)]
            simp only [List.getElem?_replicate, NULL]
            split <;> rfl
          · rw [List.getElem?_eq_none (by simp; omega)]
    · simp only [vector_get, hj, if_false]
  · rw [vector_set_out_of_range v i hi]

theorem save_socket_loop_spec (socket : Nat) (w : World) :
    ∀ (fuel i : Nat), (∀ j : Nat, j < i → vector_get w.sockets j ≠ NULL) →
      (∃ k : Nat, i ≤ k ∧ k < i + fuel ∧ vector_get w.sockets k = NULL) →
      ∃ k : Nat, i ≤ k ∧ k < i + fuel ∧ vector_get w.sockets k = NULL ∧
        (∀ j : Nat, j < k → vector_get w.sockets j ≠ NULL) ∧
        save_socket_loop socket w fuel i =
          .ret (k : Int) { w with sockets := vector_set w.sockets k socket } := by
  intro fuel
  induction fuel with
  | zero => rintro i _ ⟨k, h1, h2, _⟩; omega
  | succ fuel ih =>
    rintro i hocc ⟨k, h1, h2, h3⟩
    by_cases he : vector_get w.sockets i = NULL
    · exact ⟨i, le_refl _, by omega, he, hocc, by simp [save_socket_loop, he]⟩
    · have hki : k ≠ i := by rintro rfl; exact he h3
      obtain ⟨k', a1, a2, a3, a4, a5⟩ := ih (i + 1)
        (by
          intro j hj
          by_cases hji : j = i
          · subst hji; exact he
          · exact hocc j (by omega))
        ⟨k, by omega, by omega, h3⟩
      exact ⟨k', by omega, by omega, a3, a4, by simp [save_socket_loop, he, a5]⟩

theorem save_socket_loop_full (socket : Nat) (w : World) :
    ∀ (fuel i : Nat), (∀ k : Nat, i ≤ k → k < i + fuel → vector_get w.sockets k ≠ NULL) →
      save_socket_loop socket w fuel i = .abort w := by
  intro fuel
  induction fuel with
  | zero => intro i _; rfl
  | succ fuel ih =>
    intro i h
    have he : vector_get w.sockets i ≠ NULL := h i (le_refl _) (by omega)
    simp only [save_socket_loop, he, if_false]
    exact ih (i + 1) (fun k h1 h2 => h k (by omega) (by omega))

/-- Claim C8 (allocation): when some slot below `MAX_SOCKETS` is empty, `save_socket`
returns the smallest index whose slot is empty; afterwards a lookup of that
index gives the stored resource and every other index looks up as before;
nothing else of the state changes. A second allocation never returns that
index, and it does return an index whenever another slot was empty. -/
theorem save_socket_allocates (socket : Nat) (hs : socket ≠ NULL) (w : World)
    (hfree : ∃ k : Nat, k < MAX_SOCKETS ∧ get_socket k w = NULL) :
    ∃ (i : Nat) (w' : World), save_socket socket w = .ret (i : Int) w' ∧
      i < MAX_SOCKETS ∧ get_socket i w = NULL ∧ (∀ j : Nat, j < i → get_socket j w ≠ NULL) ∧
      get_socket i w' = socket ∧ (∀ j : Int, j ≠ (i : Int) → get_socket j w' = get_socket j w) ∧
      w'.stdin = w.stdin ∧ w'.out = w.out ∧ w'.calls = w.calls ∧
      (∀ (socket2 : Nat) (j : Int) (w'' : World), save_socket socket2 w' = .ret j w'' → j ≠ (i : Int)) ∧
      ((∃ k : Nat, k < MAX_SOCKETS ∧ k ≠ i ∧ get_socket k w = NULL) →
        ∀ socket2 : Nat, ∃ (j : Nat) (w'' : World),
          save_socket socket2 w' = .ret (j : Int) w'' ∧ j ≠ i) := by
  obtain ⟨k, hk, hk0⟩ := hfree
  obtain ⟨i, _, hi, h0, hmin, he⟩ := save_socket_loop_spec socket w MAX_SOCKETS 0
    (fun j hj => absurd hj (Nat.not_lt_zero j)) ⟨k, Nat.zero_le _, by omega, hk0⟩
  have hi' : i < MAX_SOCKETS := by omega
  have hget : get_socket i { w with sockets := vector_set w.sockets i socket } = socket := by
    have := vector_get_set_eq w.sockets i hi' socket
    simp only [get_socket]
    exact this
  have hsecond : ∀ (socket2 : Nat),
      (∃ (j : Nat) (w'' : World), save_socket socket2
          { w with sockets := vector_set w.sockets i socket } = .ret (j : Int) w'' ∧ j ≠ i) ∨
      save_socket socket2 { w with sockets := vector_set w.sockets i socket } =
        .abort { w with sockets := vector_set w.sockets i socket } := by
    intro socket2
    by_cases hex : ∃ m : Nat, m < MAX_SOCKETS ∧
        get_socket m { w with sockets := vector_set w.sockets i socket } = NULL
    · obtain ⟨m, hm, hm0⟩ := hex
      obtain ⟨j, _, _, b0, _, be⟩ := save_socket_loop_spec socket2
        { w with sockets := vector_set w.sockets i socket } MAX_SOCKETS 0
        (fun j hj => absurd hj (Nat.not_lt_zero j)) ⟨m, Nat.zero_le _, by omega, hm0⟩
      refine Or.inl ⟨j, _, be, ?_⟩
      rintro rfl
      simp only [get_socket] at hget b0
      exact hs (hget.symm.trans b0)
    · refine Or.inr (save_socket_loop_full socket2 _ MAX_SOCKETS 0 ?_)
      intro m _ hm hm0
      exact hex ⟨m, by omega, hm0⟩
  refine ⟨i, _, he, hi', h0, hmin, hget, ?_, rfl, rfl, rfl, ?_, ?_⟩
  · intro j hj
    have := vector_get_set_ne w.sockets i j hj socket
    simp only [get_socket]
    exact this
  · intro socket2 j w'' hr
    rcases hsecond socket2 with ⟨j', w3, hj', hne⟩ | hab
    · rw [hj'] at hr
      injection hr with h1 _
      rw [← h1]
      exact_mod_cast hne
    · rw [hab] at hr
      cases hr
  · rintro ⟨m, hm, hmi, hm0⟩ socket2
    rcases hsecond socket2 with h | hab
    · exact h
    · exfalso
      have hfull := save_socket_loop_spec socket2
        { w with sockets := vector_set w.sockets i socket } MAX_SOCKETS 0
        (fun j hj => absurd hj (Nat.not_lt_zero j))
        ⟨m, Nat.zero_le _, by omega, by
          have := vector_get_set_ne w.sockets i (m : Int) (by exact_mod_cast hmi) socket
          simp only [get_socket] at hm0 ⊢
          exact this.trans hm0⟩
      obtain ⟨j, _, _, _, _, be⟩ := hfull
      unfold save_socket at hab
      rw [be] at hab
      cases hab

theorem save_socket_allocates_witness :
    (9 ≠ NULL ∧ ∃ k : Nat, k < MAX_SOCKETS ∧ get_socket k w_table = NULL) ∧
    ∃ (i : Nat) (w' : World), save_socket 9 w_table = .ret (i : Int) w' ∧
      i < MAX_SOCKETS ∧ get_socket i w_table = NULL ∧
      (∀ j : Nat, j < i → get_socket j w_table ≠ NULL) ∧
      get_socket i w' = 9 ∧ (∀ j : Int, j ≠ (i : Int) → get_socket j w' = get_socket j w_table) ∧
      w'.stdin = w_table.stdin ∧ w'.out = w_table.out ∧ w'.calls = w_table.calls ∧
      (∀ (socket2 : Nat) (j : Int) (w'' : World), save_socket socket2 w' = .ret j w'' → j ≠ (i : Int)) ∧
      ((∃ k : Nat, k < MAX_SOCKETS ∧ k ≠ i ∧ get_socket k w_table = NULL) →
        ∀ socket2 : Nat, ∃ (j : Nat) (w'' : World),
          save_socket socket2 w' = .ret (j : Int) w'' ∧ j ≠ i) :=
  ⟨⟨by decide, 1, by decide, by decide⟩,
    save_socket_allocates 9 (by decide) w_table ⟨1, by decide, by decide⟩⟩

/-! ## Facts about the reply path -/

theorem write_term_cases (x : Ext) (t : ETERM) (w : World) :
    (¬ encodes x t ∧ write_term x t w = .exit EXIT_INTERNAL_ERROR w) ∨
    (encodes x t ∧ write_term x t w =
      .ret () { w with out := (write_cmd (x.erl_encode t) (x.erl_encode t).length w.out).2 }) := by
  unfold write_term safe_erl_encode encodes
  by_cases h1 : x.erl_term_len t > x.ERL_CZMQ_REPLY_BUF_SIZE
  · left
    exact ⟨fun h => by omega, by simp [h1, Outcome.bind]⟩
  · by_cases h2 : (((x.erl_encode t).length : Nat) : Int) ≠ x.erl_term_len t
    · left
      exact ⟨fun h => h2 h.2, by simp [h1, h2, Outcome.bind]⟩
    · right
      push_neg at h2
      refine ⟨⟨by omega, h2⟩, ?_⟩
      simp [h1, h2, Outcome.bind]
      rw [← h2, Int.toNat_ofNat]

theorem write_term_world (x : Ext) (t : ETERM) (w : World) :
    (write_term x t w).world.sockets = w.sockets ∧ (write_term x t w).world.calls = w.calls ∧
      (write_term x t w).world.stdin = w.stdin := by
  rcases write_term_cases x t w with ⟨_, h⟩ | ⟨_, h⟩ <;> rw [h] <;> simp [Outcome.world]

/-! ## Dispatch -/

theorem handle_cmd_eq (x : Ext) (buf : List Nat) (w : World) (id : Int) (args : ETERM)
    (hdec : x.erl_decode buf = some (.tuple [.int id, args])) :
    handle_cmd x buf w HANDLER_COUNT (handlers x) =
      if id < 0 ∨ 10 ≤ id then .exit EXIT_INTERNAL_ERROR w
      else match (handlers x)[id.toNat]? with
        | some h => h args w
        | none => .abort w := by
  simp [handle_cmd, hdec, erl_match_CMD_PATTERN, erl_element, ERL_INT_VALUE, HANDLER_COUNT]
  by_cases hc : id < 0 ∨ 10 ≤ id
  · simp [hc]
  · simp only [hc, if_false]
    generalize (handlers x)[id.toNat]? = o
    cases o <;> rfl

/-- Claim C5 (range of the command id): for an envelope whose id is negative or at
least 10, `handle_cmd` ends the process with `EXIT_INTERNAL_ERROR` (254) in the
state it was called in (no handler has run: same handle table, same output, no
foreign call), and so does the loop after reading such a frame; for an id in
`[0, 10)` it runs, on the args of the envelope, the operation the command
table gives for that id. -/
theorem dispatch_range (x : Ext) (buf : List Nat) (w : World) (id : Int) (args : ETERM)
    (hdec : x.erl_decode buf = some (.tuple [.int id, args])) :
    ((id < 0 ∨ 10 ≤ id) →
      handle_cmd x buf w HANDLER_COUNT (handlers x) = .exit EXIT_INTERNAL_ERROR w ∧
      ∀ (fuel : Nat) (cmd_buf : List Nat) (w0 : World) (n : Int),
        read_cmd CMD_BUF_SIZE cmd_buf w0 = .ret (n, buf) w → 0 < n →
        erl_czmq_loop x (fuel + 1) cmd_buf w0 = some (.exit EXIT_INTERNAL_ERROR w)) ∧
    ((0 ≤ id ∧ id < 10) →
      ∃ op, command_table x id.toNat = some op ∧
        handle_cmd x buf w HANDLER_COUNT (handlers x) = op args w) := by
  have he := handle_cmd_eq x buf w id args hdec
  constructor
  · intro hout
    rw [if_pos hout] at he
    refine ⟨he, ?_⟩
    intro fuel cmd_buf w0 n hr hn
    have h0 : ¬ n = 0 := by omega
    have h1 : ¬ n < 0 := by omega
    simp only [erl_czmq_loop, hr, h0, h1, if_false, he]
  · rintro ⟨h0, h10⟩
    have hin : ¬ (id < 0 ∨ 10 ≤ id) := by omega
    rw [if_neg hin] at he
    rw [he]
    interval_cases id <;> exact ⟨_, rfl, rfl⟩

theorem dispatch_range_witness :
    demoExt.erl_decode [12, 0] = some (.tuple [.int 12, .tuple [.int 0]]) ∧
    (((12 : Int) < 0 ∨ (10 : Int) ≤ 12) →
      handle_cmd demoExt [12, 0] w_table HANDLER_COUNT (handlers demoExt) =
        .exit EXIT_INTERNAL_ERROR w_table ∧
      ∀ (fuel : Nat) (cmd_buf : List Nat) (w0 : World) (n : Int),
        read_cmd CMD_BUF_SIZE cmd_buf w0 = .ret (n, [12, 0]) w_table → 0 < n →
        erl_czmq_loop demoExt (fuel + 1) cmd_buf w0 = some (.exit EXIT_INTERNAL_ERROR w_table)) ∧
    (((0 : Int) ≤ 12 ∧ (12 : Int) < 10) →
      ∃ op, command_table demoExt (12 : Int).toNat = some op ∧
        handle_cmd demoExt [12, 0] w_table HANDLER_COUNT (handlers demoExt) =
          op (.tuple [.int 0]) w_table) :=
  ⟨rfl, dispatch_range demoExt [12, 0] w_table 12 (.tuple [.int 0]) rfl⟩

/-! ## The handlers on a handle that misses, and on one that hits -/

/-- Claim C2 as stated fails on the code: after a destroy of the occupied handle 0
that replies `ok`, the slot still holds the resource, and a describe of handle
0 does not reply with the invalid-socket error. -/
theorem destroy_leaves_slot_occupied :
    get_socket 0 w_table = 5 ∧
      handle_zsocket_destroy demoExt (.tuple [.int 0]) w_table = .ret () w_destroyed ∧
      get_socket 0 w_destroyed = 5 ∧
      handle_zsocket_type_str demoExt (.tuple [.int 0]) w_destroyed ≠
        write_term demoExt ETERM_ERROR_INVALID_SOCKET w_destroyed := by
  refine ⟨by decide, by decide, by decide, by decide⟩

/-- Claim C9 as stated fails on the code: with the foreign return code `-2`, which is
negative, bind on an occupied handle replies `{ok, -2}` and connect replies
`ok`; neither replies with its failure term. -/
theorem bind_connect_rc_minus_two :
    handle_zsocket_bind (ext_rc (-2)) (.tuple [.int 0, .string "inproc://test"]) w_table =
        write_term (ext_rc (-2)) (.tuple [.atom "ok", .int (-2)])
          (w_table.call (.zsocket_bind 5 (some "inproc://test"))) ∧
      handle_zsocket_bind (ext_rc (-2)) (.tuple [.int 0, .string "inproc://test"]) w_table ≠
        write_term (ext_rc (-2)) ETERM_ERROR_BIND_FAILED
          (w_table.call (.zsocket_bind 5 (some "inproc://test"))) ∧
      handle_zsocket_connect (ext_rc (-2)) (.tuple [.int 0, .string "inproc://test"]) w_table =
        write_term (ext_rc (-2)) ETERM_OK
          (w_table.call (.zsocket_connect 5 (some "inproc://test"))) ∧
      handle_zsocket_connect (ext_rc (-2)) (.tuple [.int 0, .string "inproc://test"]) w_table ≠
        write_term (ext_rc (-2)) ETERM_ERROR_CONNECT_FAILED
          (w_table.call (.zsocket_connect 5 (some "inproc://test"))) := by
  refine ⟨by decide, by decide, by decide, by decide⟩

/-- Claim C9 as amended: on an occupied handle, bind and connect make their one
foreign call on the stored resource with the endpoint string; when the return
code is `-1` the reply is `{error, bind_failed}`, respectively
`{error, connect_failed}`; for every other return code `rc` the reply is
`{ok, rc}` for bind and `ok` for connect. -/
theorem bind_connect_reply (x : Ext) (w : World) (h : Int) (ep : ETERM)
    (hocc : get_socket h w ≠ NULL) :
    handle_zsocket_bind x (.tuple [.int h, ep]) w =
        write_term x
          (if x.zsocket_bind w.calls (get_socket h w) (x.erl_iolist_to_string (some ep)) = -1
            then ETERM_ERROR_BIND_FAILED
            else .tuple [.atom "ok", .int (x.zsocket_bind w.calls (get_socket h w)
              (x.erl_iolist_to_string (some ep)))])
          (w.call (.zsocket_bind (get_socket h w) (x.erl_iolist_to_string (some ep)))) ∧
      handle_zsocket_connect x (.tuple [.int h, ep]) w =
        write_term x
          (if x.zsocket_connect w.calls (get_socket h w) (x.erl_iolist_to_string (some ep)) = -1
            then ETERM_ERROR_CONNECT_FAILED
            else ETERM_OK)
          (w.call (.zsocket_connect (get_socket h w) (x.erl_iolist_to_string (some ep)))) := by
  constructor
  · simp [handle_zsocket_bind, assert_tuple_size, ERL_IS_TUPLE, erl_size, socket_from_arg,
      erl_element, ERL_INT_VALUE, hocc]
    split <;> simp_all
  · simp [handle_zsocket_connect, assert_tuple_size, ERL_IS_TUPLE, erl_size, socket_from_arg,
      erl_element, ERL_INT_VALUE, hocc]
    split <;> simp_all

theorem bind_connect_reply_witness :
    get_socket 0 w_table ≠ NULL ∧
    (handle_zsocket_bind demoExt (.tuple [.int 0, .string "inproc://test"]) w_table =
        write_term demoExt
          (if demoExt.zsocket_bind w_table.calls (get_socket 0 w_table)
              (demoExt.erl_iolist_to_string (some (.string "inproc://test"))) = -1
            then ETERM_ERROR_BIND_FAILED
            else .tuple [.atom "ok", .int (demoExt.zsocket_bind w_table.calls (get_socket 0 w_table)
              (demoExt.erl_iolist_to_string (some (.string "inproc://test"))))])
          (w_table.call (.zsocket_bind (get_socket 0 w_table)
            (demoExt.erl_iolist_to_string (some (.string "inproc://test"))))) ∧
      handle_zsocket_connect demoExt (.tuple [.int 0, .string "inproc://test"]) w_table =
        write_term demoExt
          (if demoExt.zsocket_connect w_table.calls (get_socket 0 w_table)
              (demoExt.erl_iolist_to_string (some (.string "inproc://test"))) = -1
            then ETERM_ERROR_CONNECT_FAILED
            else ETERM_OK)
          (w_table.call (.zsocket_connect (get_socket 0 w_table)
            (demoExt.erl_iolist_to_string (some (.string "inproc://test")))))) :=
  ⟨by decide, bind_connect_reply demoExt w_table 0 (.string "inproc://test") (by decide)⟩

/-- Claim C10, evaluated on the code: when `zstr_send` fails (returns `-1`) on the
occupied handle 0, the send-string handler does what writing `ok` does, not
what writing `error` does; with the same return code from `zsocket_sendmem`
the send-bytes handler writes `error`. -/
theorem zstr_send_failure_replies_ok :
    ext_send_fails.zstr_send w_table.calls 5 (some "hi") = -1 ∧
      handle_zstr_send ext_send_fails (.tuple [.int 0, .string "hi"]) w_table =
        write_term ext_send_fails ETERM_OK (w_table.call (.zstr_send 5 (some "hi"))) ∧
      handle_zstr_send ext_send_fails (.tuple [.int 0, .string "hi"]) w_table ≠
        write_term ext_send_fails ETERM_ERROR (w_table.call (.zstr_send 5 (some "hi"))) ∧
      handle_zsocket_sendmem ext_send_fails (.tuple [.int 0, .binary [104, 105], .int 0]) w_table =
        write_term ext_send_fails ETERM_ERROR
          (w_table.call (.zsocket_sendmem 5 [104, 105] 0)) := by
  refine ⟨by decide, by decide, by decide, by decide⟩

theorem handle_cmd_table (x : Ext) (buf : List Nat) (w : World) (id : Int) (args : ETERM)
    (hdec : x.erl_decode buf = some (.tuple [.int id, args])) (hid : 0 ≤ id ∧ id < 10) :
    ∃ op, command_table x id.toNat = some op ∧
      handle_cmd x buf w HANDLER_COUNT (handlers x) = op args w := by
  have he := handle_cmd_eq x buf w id args hdec
  obtain ⟨h0, h10⟩ := hid
  have hin : ¬ (id < 0 ∨ 10 ≤ id) := by omega
  rw [if_neg hin] at he
  rw [he]
  interval_cases id <;> exact ⟨_, rfl, rfl⟩

/-! ## What a write that may fail leaves on the output -/

theorem write_any (bs : List Nat) (o : Stdout) :
    ∃ k, k ≤ bs.length ∧ (write bs o).2.written = o.written ++ bs.take k ∧
      (0 < (write bs o).1 → (write bs o).1 = ((k : Nat) : Int) ∧ 0 < k) := by
  by_cases hne : bs = []
  · exact ⟨0, Nat.zero_le _, by simp [write, hne], by simp [write, hne]⟩
  · have hpos : 0 < bs.length := List.length_pos.mpr hne
    obtain ⟨written, sched⟩ := o
    cases sched with
    | nil =>
      exact ⟨bs.length, le_refl _, by simp [write, hne], by simp [write, hne, hpos]⟩
    | cons c rest =>
      by_cases hc : c ≤ 0
      · exact ⟨0, Nat.zero_le _, by simp [write, hne, hc], by simp [write, hne, hc]⟩
      · refine ⟨min c.toNat bs.length, Nat.min_le_right _ _, by simp [write, hne, hc], ?_⟩
        intro _
        refine ⟨by simp [write, hne, hc], ?_⟩
        have : 0 < c.toNat := by omega
        omega

theorem write_exact_loop_any (buf : List Nat) (len : Nat) :
    ∀ (fuel wrote : Nat) (o : Stdout),
      ∃ p, p <+: (buf.drop wrote).take (len - wrote) ∧
        (write_exact_loop buf len fuel wrote o).2.written = o.written ++ p := by
  intro fuel
  induction fuel with
  | zero => intro wrote o; exact ⟨[], List.nil_prefix, by simp [write_exact_loop]⟩
  | succ fuel ih =>
    intro wrote o
    obtain ⟨k, hk, hw, hi⟩ := write_any ((buf.drop wrote).take (len - wrote)) o
    unfold write_exact_loop
    generalize write ((buf.drop wrote).take (len - wrote)) o = r at hw hi
    obtain ⟨i, o1⟩ := r
    simp only at hw hi ⊢
    by_cases hle : i ≤ 0
    · simp only [hle, if_true]
      exact ⟨_, List.take_prefix k _, hw⟩
    · simp only [hle, if_false]
      obtain ⟨hik, _⟩ := hi (by omega)
      subst hik
      simp only [Int.toNat_ofNat]
      by_cases hlt : wrote + k < len
      · simp only [hlt, if_true]
        obtain ⟨p, hp, he⟩ := ih (wrote + k) o1
        refine ⟨((buf.drop wrote).take (len - wrote)).take k ++ p, ?_, by rw [he, hw, List.append_assoc]⟩
        have hd : ((buf.drop wrote).take (len - wrote)).drop k =
            (buf.drop (wrote + k)).take (len - (wrote + k)) := by
          rw [List.drop_take, List.drop_drop]
          congr 1
          omega
        rw [← hd] at hp
        conv_rhs => rw [← List.take_append_drop k ((buf.drop wrote).take (len - wrote))]
        exact (List.prefix_append_right_inj _).mpr hp
      · simp only [hlt, if_false]
        exact ⟨_, List.take_prefix k _, hw⟩

theorem write_exact_any (buf : List Nat) (len : Nat) (o : Stdout) :
    ∃ p, p <+: buf.take len ∧ (write_exact buf len o).2.written = o.written ++ p := by
  simpa [write_exact] using write_exact_loop_any buf len (len + 1) 0 o

theorem write_cmd_any (buf : List Nat) (len : Nat) (o : Stdout) :
    ∃ p1 p2 p3, p1 <+: [len / 256 % 256] ∧ p2 <+: [len % 256] ∧ p3 <+: buf.take len ∧
      (write_cmd buf len o).2.written = o.written ++ p1 ++ p2 ++ p3 := by
  unfold write_cmd
  obtain ⟨e1, e2⟩ := length_bytes len
  simp only [e1, e2]
  obtain ⟨p1, h1, a1⟩ := write_exact_any [len / 256 % 256] 1 o
  obtain ⟨p2, h2, a2⟩ := write_exact_any [len % 256] 1 (write_exact [len / 256 % 256] 1 o).2
  obtain ⟨p3, h3, a3⟩ := write_exact_any buf len
    (write_exact [len % 256] 1 (write_exact [len / 256 % 256] 1 o).2).2
  refine ⟨p1, p2, p3, by simpa using h1, by simpa using h2, h3, ?_⟩
  rw [a3, a2, a1]

/-! ## Replying -/

theorem write_cmd_bytes (bs : List Nat) (o : Stdout) :
    (∃ p1 p2 p3, p1 <+: [bs.length / 256 % 256] ∧ p2 <+: [bs.length % 256] ∧ p3 <+: bs ∧
      (write_cmd bs bs.length o).2.written = o.written ++ p1 ++ p2 ++ p3) ∧
    (no_fail o → (write_cmd bs bs.length o).2.written =
      o.written ++ [bs.length / 256 % 256, bs.length % 256] ++ bs) := by
  constructor
  · simpa using write_cmd_any bs bs.length o
  · intro hnf
    simpa using (write_cmd_full bs bs.length (le_refl _) o hnf).2.1

theorem is_reply_replies_with (x : Ext) (w1 : World) (t : ETERM) (o : Outcome Unit)
    (h : is_reply x w1 t o) : replies_with x w1 t o := by
  obtain ⟨hb1, hb2⟩ := write_cmd_bytes (x.erl_encode t) w1.out
  rcases write_term_cases x t w1 with ⟨hn, he⟩ | ⟨hy, he⟩
  · refine ⟨fun _ => ?_, fun hy => absurd hy hn⟩
    rcases h with h | h
    · rw [h, he]
    · rw [h, he]; rfl
  · refine ⟨fun hn => absurd hy hn, fun _ => ?_⟩
    rcases h with h | h
    · exact ⟨{ w1 with out := (write_cmd (x.erl_encode t) (x.erl_encode t).length w1.out).2 },
        by rw [h, he], rfl, rfl, Or.inl rfl, rfl, hb1, hb2⟩
    · exact ⟨World.call
          { w1 with out := (write_cmd (x.erl_encode t) (x.erl_encode t).length w1.out).2 }
          .zframe_destroy,
        by rw [h, he]; rfl, rfl, rfl, Or.inr rfl, rfl, hb1, hb2⟩

theorem miss_type_str (x : Ext) (args : ETERM) (w : World)
    (ha : assert_tuple_size args 1 = true) (hs : socket_from_arg x args 1 w = NULL) :
    handle_zsocket_type_str x args w = write_term x ETERM_ERROR_INVALID_SOCKET w := by
  simp [handle_zsocket_type_str, ha, hs]

theorem miss_bind (x : Ext) (args : ETERM) (w : World)
    (ha : assert_tuple_size args 2 = true) (hs : socket_from_arg x args 1 w = NULL) :
    handle_zsocket_bind x args w = write_term x ETERM_ERROR_INVALID_SOCKET w := by
  simp [handle_zsocket_bind, ha, hs]

theorem miss_connect (x : Ext) (args : ETERM) (w : World)
    (ha : assert_tuple_size args 2 = true) (hs : socket_from_arg x args 1 w = NULL) :
    handle_zsocket_connect x args w = write_term x ETERM_ERROR_INVALID_SOCKET w := by
  simp [handle_zsocket_connect, ha, hs]

theorem miss_sendmem (x : Ext) (args : ETERM) (w : World)
    (ha : assert_tuple_size args 3 = true) (hs : socket_from_arg x args 1 w = NULL) :
    handle_zsocket_sendmem x args w = write_term x ETERM_ERROR_INVALID_SOCKET w := by
  simp [handle_zsocket_sendmem, ha, hs]

theorem miss_destroy (x : Ext) (args : ETERM) (w : World)
    (ha : assert_tuple_size args 1 = true) (hs : socket_from_arg x args 1 w = NULL) :
    handle_zsocket_destroy x args w = write_term x ETERM_ERROR_INVALID_SOCKET w := by
  simp [handle_zsocket_destroy, ha, hs]

theorem miss_zstr_send (x : Ext) (args : ETERM) (w : World)
    (ha : assert_tuple_size args 2 = true) (hs : socket_from_arg x args 1 w = NULL) :
    handle_zstr_send x args w = write_term x ETERM_ERROR_INVALID_SOCKET w := by
  simp [handle_zstr_send, ha, hs]

theorem miss_zstr_recv (x : Ext) (args : ETERM) (w : World)
    (ha : assert_tuple_size args 1 = true) (hs : socket_from_arg x args 1 w = NULL) :
    handle_zstr_recv_nowait x args w = write_term x ETERM_ERROR_INVALID_SOCKET w := by
  simp [handle_zstr_recv_nowait, ha, hs]

theorem miss_zframe_recv (x : Ext) (args : ETERM) (w : World)
    (ha : assert_tuple_size args 1 = true) (hs : socket_from_arg x args 1 w = NULL) :
    handle_zframe_recv_nowait x args w = write_term x ETERM_ERROR_INVALID_SOCKET w := by
  simp [handle_zframe_recv_nowait, ha, hs]

theorem hit_type_str (x : Ext) (args : ETERM) (w : World)
    (ha : assert_tuple_size args 1 = true) (hs : socket_from_arg x args 1 w ≠ NULL) :
    ∃ t c, t ≠ ETERM_ERROR_INVALID_SOCKET ∧ c.socket = some (socket_from_arg x args 1 w) ∧
      is_reply x (w.call c) t (handle_zsocket_type_str x args w) := by
  simp only [handle_zsocket_type_str, ha, hs, Bool.not_true, Bool.false_eq_true, if_false]
  exact ⟨_, .zsocket_type_str _, by simp [ETERM_ERROR_INVALID_SOCKET, ETERM_ERROR_BIND_FAILED, ETERM_ERROR_CONNECT_FAILED, ETERM_OK, ETERM_ERROR],
    rfl, Or.inl rfl⟩

theorem hit_bind (x : Ext) (args : ETERM) (w : World)
    (ha : assert_tuple_size args 2 = true) (hs : socket_from_arg x args 1 w ≠ NULL) :
    ∃ t c, t ≠ ETERM_ERROR_INVALID_SOCKET ∧ c.socket = some (socket_from_arg x args 1 w) ∧
      is_reply x (w.call c) t (handle_zsocket_bind x args w) := by
  simp only [handle_zsocket_bind, ha, hs, Bool.not_true, Bool.false_eq_true, if_false]
  split
  · exact ⟨_, .zsocket_bind _ _, by simp [ETERM_ERROR_INVALID_SOCKET, ETERM_ERROR_BIND_FAILED, ETERM_ERROR_CONNECT_FAILED, ETERM_OK, ETERM_ERROR],
      rfl, Or.inl rfl⟩
  · exact ⟨_, .zsocket_bind _ _, by simp [ETERM_ERROR_INVALID_SOCKET, ETERM_ERROR_BIND_FAILED, ETERM_ERROR_CONNECT_FAILED, ETERM_OK, ETERM_ERROR],
      rfl, Or.inl rfl⟩

theorem hit_connect (x : Ext) (args : ETERM) (w : World)
    (ha : assert_tuple_size args 2 = true) (hs : socket_from_arg x args 1 w ≠ NULL) :
    ∃ t c, t ≠ ETERM_ERROR_INVALID_SOCKET ∧ c.socket = some (socket_from_arg x args 1 w) ∧
      is_reply x (w.call c) t (handle_zsocket_connect x args w) := by
  simp only [handle_zsocket_connect, ha, hs, Bool.not_true, Bool.false_eq_true, if_false]
  split
  · exact ⟨_, .zsocket_connect _ _, by simp [ETERM_ERROR_INVALID_SOCKET, ETERM_ERROR_BIND_FAILED, ETERM_ERROR_CONNECT_FAILED, ETERM_OK, ETERM_ERROR],
      rfl, Or.inl rfl⟩
  · exact ⟨_, .zsocket_connect _ _, by simp [ETERM_ERROR_INVALID_SOCKET, ETERM_ERROR_BIND_FAILED, ETERM_ERROR_CONNECT_FAILED, ETERM_OK, ETERM_ERROR],
      rfl, Or.inl rfl⟩

theorem hit_sendmem (x : Ext) (args : ETERM) (w : World)
    (ha : assert_tuple_size args 3 = true) (hs : socket_from_arg x args 1 w ≠ NULL) :
    ∃ t c, t ≠ ETERM_ERROR_INVALID_SOCKET ∧ c.socket = some (socket_from_arg x args 1 w) ∧
      is_reply x (w.call c) t (handle_zsocket_sendmem x args w) := by
  simp only [handle_zsocket_sendmem, ha, hs, Bool.not_true, Bool.false_eq_true, if_false]
  split
  · exact ⟨_, .zsocket_sendmem _ _ _, by simp [ETERM_ERROR_INVALID_SOCKET, ETERM_ERROR_BIND_FAILED, ETERM_ERROR_CONNECT_FAILED, ETERM_OK, ETERM_ERROR],
      rfl, Or.inl rfl⟩
  · exact ⟨_, .zsocket_sendmem _ _ _, by simp [ETERM_ERROR_INVALID_SOCKET, ETERM_ERROR_BIND_FAILED, ETERM_ERROR_CONNECT_FAILED, ETERM_OK, ETERM_ERROR],
      rfl, Or.inl rfl⟩

theorem hit_destroy (x : Ext) (args : ETERM) (w : World)
    (ha : assert_tuple_size args 1 = true) (hs : socket_from_arg x args 1 w ≠ NULL) :
    ∃ t c, t ≠ ETERM_ERROR_INVALID_SOCKET ∧ c.socket = some (socket_from_arg x args 1 w) ∧
      is_reply x (w.call c) t (handle_zsocket_destroy x args w) := by
  simp only [handle_zsocket_destroy, ha, hs, Bool.not_true, Bool.false_eq_true, if_false]
  exact ⟨_, .zsocket_destroy _, by simp [ETERM_ERROR_INVALID_SOCKET, ETERM_ERROR_BIND_FAILED, ETERM_ERROR_CONNECT_FAILED, ETERM_OK, ETERM_ERROR],
    rfl, Or.inl rfl⟩

theorem hit_zstr_send (x : Ext) (args : ETERM) (w : World)
    (ha : assert_tuple_size args 2 = true) (hs : socket_from_arg x args 1 w ≠ NULL) :
    ∃ t c, t ≠ ETERM_ERROR_INVALID_SOCKET ∧ c.socket = some (socket_from_arg x args 1 w) ∧
      is_reply x (w.call c) t (handle_zstr_send x args w) := by
  simp only [handle_zstr_send, ha, hs, Bool.not_true, Bool.false_eq_true, if_false]
  exact ⟨_, .zstr_send _ _, by simp [ETERM_ERROR_INVALID_SOCKET, ETERM_ERROR_BIND_FAILED, ETERM_ERROR_CONNECT_FAILED, ETERM_OK, ETERM_ERROR],
    rfl, Or.inl rfl⟩

theorem hit_zstr_recv (x : Ext) (args : ETERM) (w : World)
    (ha : assert_tuple_size args 1 = true) (hs : socket_from_arg x args 1 w ≠ NULL) :
    ∃ t c, t ≠ ETERM_ERROR_INVALID_SOCKET ∧ c.socket = some (socket_from_arg x args 1 w) ∧
      is_reply x (w.call c) t (handle_zstr_recv_nowait x args w) := by
  simp only [handle_zstr_recv_nowait, ha, hs, Bool.not_true, Bool.false_eq_true, if_false]
  split
  · exact ⟨_, .zstr_recv_nowait _, by simp [ETERM_ERROR_INVALID_SOCKET, ETERM_ERROR_BIND_FAILED, ETERM_ERROR_CONNECT_FAILED, ETERM_OK, ETERM_ERROR],
      rfl, Or.inl rfl⟩
  · exact ⟨_, .zstr_recv_nowait _, by simp [ETERM_ERROR_INVALID_SOCKET, ETERM_ERROR_BIND_FAILED, ETERM_ERROR_CONNECT_FAILED, ETERM_OK, ETERM_ERROR],
      rfl, Or.inl rfl⟩

theorem hit_zframe_recv (x : Ext) (args : ETERM) (w : World)
    (ha : assert_tuple_size args 1 = true) (hs : socket_from_arg x args 1 w ≠ NULL) :
    ∃ t c, t ≠ ETERM_ERROR_INVALID_SOCKET ∧ c.socket = some (socket_from_arg x args 1 w) ∧
      is_reply x (w.call c) t (handle_zframe_recv_nowait x args w) := by
  simp only [handle_zframe_recv_nowait, ha, hs, Bool.not_true, Bool.false_eq_true, if_false]
  split
  · exact ⟨_, .zframe_recv_nowait _, by simp [ETERM_ERROR_INVALID_SOCKET, ETERM_ERROR_BIND_FAILED, ETERM_ERROR_CONNECT_FAILED, ETERM_OK, ETERM_ERROR],
      rfl, Or.inl rfl⟩
  · exact ⟨_, .zframe_recv_nowait _, by simp [ETERM_ERROR_INVALID_SOCKET, ETERM_ERROR_BIND_FAILED, ETERM_ERROR_CONNECT_FAILED, ETERM_OK, ETERM_ERROR],
      rfl, Or.inr rfl⟩

theorem new_aborts (x : Ext) (args : ETERM) (w : World) (ha : assert_tuple_size args 1 = true)
    (hbad : x.zsocket_new w.calls (ERL_INT_VALUE x (erl_element 1 args)) = NULL ∨
      ∀ k : Nat, k < MAX_SOCKETS → get_socket k w ≠ NULL) :
    ∃ w1, handle_zsocket_new x args w = .abort w1 ∧ w1.out = w.out ∧ w1.stdin = w.stdin := by
  by_cases hnull : x.zsocket_new w.calls (ERL_INT_VALUE x (erl_element 1 args)) = NULL
  · exact ⟨w.call (.zsocket_new (ERL_INT_VALUE x (erl_element 1 args))),
      by simp [handle_zsocket_new, ha, hnull], rfl, rfl⟩
  · have hfull : ∀ k : Nat, k < MAX_SOCKETS → get_socket k w ≠ NULL := by
      rcases hbad with h | h
      · exact absurd h hnull
      · exact h
    have hs : save_socket (x.zsocket_new w.calls (ERL_INT_VALUE x (erl_element 1 args)))
        (w.call (.zsocket_new (ERL_INT_VALUE x (erl_element 1 args)))) = .abort _ :=
      save_socket_loop_full _ _ MAX_SOCKETS 0 (fun k _ hk => hfull k (by omega))
    exact ⟨w.call (.zsocket_new (ERL_INT_VALUE x (erl_element 1 args))),
      by simp [handle_zsocket_new, ha, hnull, hs, Outcome.bind], rfl, rfl⟩

theorem new_replies (x : Ext) (args : ETERM) (w : World) (ha : assert_tuple_size args 1 = true)
    (hnew : x.zsocket_new w.calls (ERL_INT_VALUE x (erl_element 1 args)) ≠ NULL)
    (hfree : ∃ k : Nat, k < MAX_SOCKETS ∧ get_socket k w = NULL) :
    ∃ t w1, w1.out = w.out ∧ w1.stdin = w.stdin ∧ is_reply x w1 t (handle_zsocket_new x args w) := by
  obtain ⟨k, hk, hk0⟩ := hfree
  obtain ⟨i, _, _, _, _, he⟩ := save_socket_loop_spec
    (x.zsocket_new w.calls (ERL_INT_VALUE x (erl_element 1 args)))
    (w.call (.zsocket_new (ERL_INT_VALUE x (erl_element 1 args)))) MAX_SOCKETS 0
    (fun j hj => absurd hj (Nat.not_lt_zero j)) ⟨k, Nat.zero_le _, by omega, hk0⟩
  have hs : save_socket (x.zsocket_new w.calls (ERL_INT_VALUE x (erl_element 1 args)))
      (w.call (.zsocket_new (ERL_INT_VALUE x (erl_element 1 args)))) = _ := he
  simp only [handle_zsocket_new, ha, Bool.not_true, Bool.false_eq_true, if_false, hnew, hs,
    Outcome.bind]
  exact ⟨.int i,
    { w.call (.zsocket_new (ERL_INT_VALUE x (erl_element 1 args))) with
      sockets := vector_set
        (w.call (.zsocket_new (ERL_INT_VALUE x (erl_element 1 args)))).sockets i
        (x.zsocket_new w.calls (ERL_INT_VALUE x (erl_element 1 args))) },
    rfl, rfl, Or.inl rfl⟩

theorem handler_replies (x : Ext) (id : Nat) (args : ETERM) (w : World) (h2 : 2 ≤ id)
    (h9 : id ≤ 9) (ha : assert_tuple_size args (args_arity id : Nat) = true) :
    ∃ op, command_table x id = some op ∧
      ((socket_from_arg x args 1 w = NULL ∧ op args w = write_term x ETERM_ERROR_INVALID_SOCKET w) ∨
       (socket_from_arg x args 1 w ≠ NULL ∧
        ∃ t c, t ≠ ETERM_ERROR_INVALID_SOCKET ∧ c.socket = some (socket_from_arg x args 1 w) ∧
          is_reply x (w.call c) t (op args w))) := by
  by_cases hs : socket_from_arg x args 1 w = NULL
  · interval_cases id <;> simp only [args_arity, Nat.cast_ofNat, Nat.cast_one] at ha
    · exact ⟨_, rfl, Or.inl ⟨hs, miss_type_str x args w ha hs⟩⟩
    · exact ⟨_, rfl, Or.inl ⟨hs, miss_bind x args w ha hs⟩⟩
    · exact ⟨_, rfl, Or.inl ⟨hs, miss_connect x args w ha hs⟩⟩
    · exact ⟨_, rfl, Or.inl ⟨hs, miss_sendmem x args w ha hs⟩⟩
    · exact ⟨_, rfl, Or.inl ⟨hs, miss_destroy x args w ha hs⟩⟩
    · exact ⟨_, rfl, Or.inl ⟨hs, miss_zstr_send x args w ha hs⟩⟩
    · exact ⟨_, rfl, Or.inl ⟨hs, miss_zstr_recv x args w ha hs⟩⟩
    · exact ⟨_, rfl, Or.inl ⟨hs, miss_zframe_recv x args w ha hs⟩⟩
  · interval_cases id <;> simp only [args_arity, Nat.cast_ofNat, Nat.cast_one] at ha
    · exact ⟨_, rfl, Or.inr ⟨hs, hit_type_str x args w ha hs⟩⟩
    · exact ⟨_, rfl, Or.inr ⟨hs, hit_bind x args w ha hs⟩⟩
    · exact ⟨_, rfl, Or.inr ⟨hs, hit_connect x args w ha hs⟩⟩
    · exact ⟨_, rfl, Or.inr ⟨hs, hit_sendmem x args w ha hs⟩⟩
    · exact ⟨_, rfl, Or.inr ⟨hs, hit_destroy x args w ha hs⟩⟩
    · exact ⟨_, rfl, Or.inr ⟨hs, hit_zstr_send x args w ha hs⟩⟩
    · exact ⟨_, rfl, Or.inr ⟨hs, hit_zstr_recv x args w ha hs⟩⟩
    · exact ⟨_, rfl, Or.inr ⟨hs, hit_zframe_recv x args w ha hs⟩⟩

theorem handle_args (x : Ext) (w : World) (id : Nat) (h : Int) (rest : List ETERM)
    (harity : rest.length + 1 = args_arity id) :
    assert_tuple_size (.tuple (.int h :: rest)) (args_arity id : Nat) = true ∧
      socket_from_arg x (.tuple (.int h :: rest)) 1 w = get_socket h w := by
  constructor
  · simp [assert_tuple_size, ERL_IS_TUPLE, erl_size, ← harity]
  · simp [socket_from_arg, erl_element, ERL_INT_VALUE]

theorem handle_cmd_handle (x : Ext) (buf : List Nat) (w : World) (id : Nat) (h : Int)
    (rest : List ETERM) (hid : 2 ≤ id ∧ id ≤ 9)
    (hdec : x.erl_decode buf = some (.tuple [.int id, .tuple (.int h :: rest)]))
    (harity : rest.length + 1 = args_arity id) :
    (get_socket h w = NULL ∧
      handle_cmd x buf w HANDLER_COUNT (handlers x) = write_term x ETERM_ERROR_INVALID_SOCKET w) ∨
    (get_socket h w ≠ NULL ∧
      ∃ t c, t ≠ ETERM_ERROR_INVALID_SOCKET ∧ c.socket = some (get_socket h w) ∧
        is_reply x (w.call c) t (handle_cmd x buf w HANDLER_COUNT (handlers x))) := by
  obtain ⟨ha, hs⟩ := handle_args x w id h rest harity
  obtain ⟨op, hop, he⟩ := handle_cmd_table x buf w id _ hdec ⟨by omega, by omega⟩
  obtain ⟨op', hop', hr⟩ := handler_replies x id _ w hid.1 hid.2 ha
  rw [Int.toNat_ofNat, hop'] at hop
  cases hop
  rw [he, ← hs]
  exact hr

/-- Claim C1 as stated fails on the code: on a lookup miss (slot 1 is empty)
with an output on which the writes fail, the describe handler returns and the
reply has not been written: the output is as empty as before. -/
theorem miss_with_failing_write :
    get_socket 1 w_write_fails = NULL ∧
      handle_cmd demoExt [2, 1] w_write_fails HANDLER_COUNT (handlers demoExt) =
        .ret () ⟨[5, 0, 7], [], ⟨[], []⟩, []⟩ := by
  refine ⟨by decide, by decide⟩

/-- Claim C1 as amended: for each command id from 2 to 9, an envelope whose
args tuple has the arity of the command and an integer handle in first
position that misses on lookup makes `handle_cmd` do what
`write_term(ETERM_ERROR_INVALID_SOCKET, state)` does in the state it was
called in: no foreign call is made and the handle table is unchanged. If the
codec does not encode that term within the reply buffer the process exits
with `EXIT_INTERNAL_ERROR`; otherwise the handler returns after one
`write_cmd`, the bytes added to the output being exactly the frame of
`{error, invalid_socket}` when no write fails, and at most a part of it when
one does. -/
theorem invalid_socket_reply (x : Ext) (buf : List Nat) (w : World) (id : Nat) (h : Int)
    (rest : List ETERM) (hid : 2 ≤ id ∧ id ≤ 9)
    (hdec : x.erl_decode buf = some (.tuple [.int id, .tuple (.int h :: rest)]))
    (harity : rest.length + 1 = args_arity id) (hmiss : get_socket h w = NULL) :
    handle_cmd x buf w HANDLER_COUNT (handlers x) = write_term x ETERM_ERROR_INVALID_SOCKET w ∧
      (handle_cmd x buf w HANDLER_COUNT (handlers x)).world.sockets = w.sockets ∧
      (handle_cmd x buf w HANDLER_COUNT (handlers x)).world.calls = w.calls ∧
      (¬ encodes x ETERM_ERROR_INVALID_SOCKET →
        handle_cmd x buf w HANDLER_COUNT (handlers x) = .exit EXIT_INTERNAL_ERROR w) ∧
      (encodes x ETERM_ERROR_INVALID_SOCKET →
        ∃ w', handle_cmd x buf w HANDLER_COUNT (handlers x) = .ret () w' ∧
          w'.sockets = w.sockets ∧ w'.calls = w.calls ∧ w'.stdin = w.stdin ∧
          (∃ p1 p2 p3,
            p1 <+: [(x.erl_encode ETERM_ERROR_INVALID_SOCKET).length / 256 % 256] ∧
            p2 <+: [(x.erl_encode ETERM_ERROR_INVALID_SOCKET).length % 256] ∧
            p3 <+: x.erl_encode ETERM_ERROR_INVALID_SOCKET ∧
            w'.out.written = w.out.written ++ p1 ++ p2 ++ p3) ∧
          (no_fail w.out → w'.out.written = w.out.written ++
            [(x.erl_encode ETERM_ERROR_INVALID_SOCKET).length / 256 % 256,
             (x.erl_encode ETERM_ERROR_INVALID_SOCKET).length % 256] ++
            x.erl_encode ETERM_ERROR_INVALID_SOCKET)) := by
  have he : handle_cmd x buf w HANDLER_COUNT (handlers x) =
      write_term x ETERM_ERROR_INVALID_SOCKET w := by
    rcases handle_cmd_handle x buf w id h rest hid hdec harity with ⟨_, he⟩ | ⟨hne, _⟩
    · exact he
    · exact absurd hmiss hne
  obtain ⟨h1, h2, _⟩ := write_term_world x ETERM_ERROR_INVALID_SOCKET w
  obtain ⟨hx, hr⟩ := is_reply_replies_with x w ETERM_ERROR_INVALID_SOCKET _ (Or.inl he)
  refine ⟨he, by rw [he]; exact h1, by rw [he]; exact h2, hx, ?_⟩
  intro henc
  obtain ⟨w', e1, e2, e3, _, _, e6, e7⟩ := hr henc
  refine ⟨w', e1, e2, ?_, e3, e6, e7⟩
  have := h2
  rw [← he, e1] at this
  exact this

theorem invalid_socket_reply_witness :
    ((2 ≤ 2 ∧ 2 ≤ 9) ∧
      demoExt.erl_decode [2, 1] = some (.tuple [.int (2 : Nat), .tuple (.int 1 :: [])]) ∧
      ([] : List ETERM).length + 1 = args_arity 2 ∧ get_socket 1 w_table = NULL ∧
      encodes demoExt ETERM_ERROR_INVALID_SOCKET ∧ no_fail w_table.out) ∧
    (handle_cmd demoExt [2, 1] w_table HANDLER_COUNT (handlers demoExt) =
        write_term demoExt ETERM_ERROR_INVALID_SOCKET w_table ∧
      (handle_cmd demoExt [2, 1] w_table HANDLER_COUNT (handlers demoExt)).world.sockets =
        w_table.sockets ∧
      (handle_cmd demoExt [2, 1] w_table HANDLER_COUNT (handlers demoExt)).world.calls =
        w_table.calls ∧
      (¬ encodes demoExt ETERM_ERROR_INVALID_SOCKET →
        handle_cmd demoExt [2, 1] w_table HANDLER_COUNT (handlers demoExt) =
          .exit EXIT_INTERNAL_ERROR w_table) ∧
      (encodes demoExt ETERM_ERROR_INVALID_SOCKET →
        ∃ w', handle_cmd demoExt [2, 1] w_table HANDLER_COUNT (handlers demoExt) = .ret () w' ∧
          w'.sockets = w_table.sockets ∧ w'.calls = w_table.calls ∧ w'.stdin = w_table.stdin ∧
          (∃ p1 p2 p3,
            p1 <+: [(demoExt.erl_encode ETERM_ERROR_INVALID_SOCKET).length / 256 % 256] ∧
            p2 <+: [(demoExt.erl_encode ETERM_ERROR_INVALID_SOCKET).length % 256] ∧
            p3 <+: demoExt.erl_encode ETERM_ERROR_INVALID_SOCKET ∧
            w'.out.written = w_table.out.written ++ p1 ++ p2 ++ p3) ∧
          (no_fail w_table.out → w'.out.written = w_table.out.written ++
            [(demoExt.erl_encode ETERM_ERROR_INVALID_SOCKET).length / 256 % 256,
             (demoExt.erl_encode ETERM_ERROR_INVALID_SOCKET).length % 256] ++
            demoExt.erl_encode ETERM_ERROR_INVALID_SOCKET))) :=
  ⟨⟨by decide, rfl, rfl, by decide, by decide, by decide⟩,
    invalid_socket_reply demoExt [2, 1] w_table 2 1 [] (by decide) rfl rfl (by decide)⟩

/-- Claim C2 as amended: destroy on an occupied handle does what writing `ok` does
after the one foreign call `zsocket_destroy` on the stored resource; the handle
table is left as it was, so a lookup of the handle still gives the resource;
when the codec encodes `ok` the handler returns, the frame of `ok` written if
no write fails (see `replies_with`). And in every later state in
which the handle still looks up as before, each handle-taking command (ids 2
to 9) on it takes its hit branch: it makes a foreign call on the stored
resource and replies with a term that is not `{error, invalid_socket}`. -/
theorem destroy_reply (x : Ext) (w : World) (h : Int) (hocc : get_socket h w ≠ NULL) :
    handle_zsocket_destroy x (.tuple [.int h]) w =
        write_term x ETERM_OK (w.call (.zsocket_destroy (get_socket h w))) ∧
      (handle_zsocket_destroy x (.tuple [.int h]) w).world.calls =
        w.calls ++ [.zsocket_destroy (get_socket h w)] ∧
      (handle_zsocket_destroy x (.tuple [.int h]) w).world.sockets = w.sockets ∧
      get_socket h (handle_zsocket_destroy x (.tuple [.int h]) w).world = get_socket h w ∧
      (encodes x ETERM_OK →
        ∃ w', handle_zsocket_destroy x (.tuple [.int h]) w = .ret () w') ∧
      replies_with x (w.call (.zsocket_destroy (get_socket h w))) ETERM_OK
        (handle_zsocket_destroy x (.tuple [.int h]) w) ∧
      (∀ (w' : World) (buf : List Nat) (id : Nat) (rest : List ETERM),
        get_socket h w' = get_socket h w → 2 ≤ id ∧ id ≤ 9 →
        x.erl_decode buf = some (.tuple [.int id, .tuple (.int h :: rest)]) →
        rest.length + 1 = args_arity id →
        ∃ t c, t ≠ ETERM_ERROR_INVALID_SOCKET ∧ c.socket = some (get_socket h w) ∧
          is_reply x (w'.call c) t (handle_cmd x buf w' HANDLER_COUNT (handlers x)) ∧
          replies_with x (w'.call c) t (handle_cmd x buf w' HANDLER_COUNT (handlers x))) := by
  have he : handle_zsocket_destroy x (.tuple [.int h]) w =
      write_term x ETERM_OK (w.call (.zsocket_destroy (get_socket h w))) := by
    simp [handle_zsocket_destroy, assert_tuple_size, ERL_IS_TUPLE, erl_size, socket_from_arg,
      erl_element, ERL_INT_VALUE, hocc]
  obtain ⟨h1, h2, _⟩ := write_term_world x ETERM_OK (w.call (.zsocket_destroy (get_socket h w)))
  have hs : (handle_zsocket_destroy x (.tuple [.int h]) w).world.sockets = w.sockets := by
    rw [he]; exact h1
  refine ⟨he, by rw [he]; exact h2, hs, ?_, ?_, ?_, ?_⟩
  · simp only [get_socket, hs]
  · intro henc
    rcases write_term_cases x ETERM_OK (w.call (.zsocket_destroy (get_socket h w))) with
      ⟨hn, _⟩ | ⟨_, hr⟩
    · exact absurd henc hn
    · exact ⟨_, by rw [he, hr]⟩
  · exact is_reply_replies_with x _ ETERM_OK _ (Or.inl he)
  · intro w' buf id rest hsame hid hdec harity
    rcases handle_cmd_handle x buf w' id h rest hid hdec harity with ⟨h0, _⟩ | ⟨_, t, c, ht, hc, hr⟩
    · rw [hsame] at h0
      exact absurd h0 hocc
    · rw [hsame] at hc
      exact ⟨t, c, ht, hc, hr, is_reply_replies_with x _ t _ hr⟩

theorem destroy_reply_witness :
    get_socket 0 w_table ≠ NULL ∧
    (handle_zsocket_destroy demoExt (.tuple [.int 0]) w_table =
        write_term demoExt ETERM_OK (w_table.call (.zsocket_destroy (get_socket 0 w_table))) ∧
      (handle_zsocket_destroy demoExt (.tuple [.int 0]) w_table).world.calls =
        w_table.calls ++ [.zsocket_destroy (get_socket 0 w_table)] ∧
      (handle_zsocket_destroy demoExt (.tuple [.int 0]) w_table).world.sockets = w_table.sockets ∧
      get_socket 0 (handle_zsocket_destroy demoExt (.tuple [.int 0]) w_table).world =
        get_socket 0 w_table ∧
      (encodes demoExt ETERM_OK →
        ∃ w', handle_zsocket_destroy demoExt (.tuple [.int 0]) w_table = .ret () w') ∧
      replies_with demoExt (w_table.call (.zsocket_destroy (get_socket 0 w_table))) ETERM_OK
        (handle_zsocket_destroy demoExt (.tuple [.int 0]) w_table) ∧
      (∀ (w' : World) (buf : List Nat) (id : Nat) (rest : List ETERM),
        get_socket 0 w' = get_socket 0 w_table → 2 ≤ id ∧ id ≤ 9 →
        demoExt.erl_decode buf = some (.tuple [.int id, .tuple (.int 0 :: rest)]) →
        rest.length + 1 = args_arity id →
        ∃ t c, t ≠ ETERM_ERROR_INVALID_SOCKET ∧ c.socket = some (get_socket 0 w_table) ∧
          is_reply demoExt (w'.call c) t
            (handle_cmd demoExt buf w' HANDLER_COUNT (handlers demoExt)) ∧
          replies_with demoExt (w'.call c) t
            (handle_cmd demoExt buf w' HANDLER_COUNT (handlers demoExt)))) :=
  ⟨by decide, destroy_reply demoExt w_table 0 (by decide)⟩

/-- Claim C4 as stated fails on the code: with an output on which three writes
fail, the describe command on the occupied handle 0 returns (the process goes
on) with no reply frame written; and the loop, given two such commands and
then the end of the stream, has handled both when it exits and has written
one reply frame, that of the second. -/
theorem failed_write_leaves_no_frame :
    handle_cmd demoExt [2, 0] w_write_fails HANDLER_COUNT (handlers demoExt) =
        .ret () ⟨[5, 0, 7], [], ⟨[], []⟩, [.zsocket_type_str 5]⟩ ∧
      erl_czmq_loop demoExt 3 [0, 0]
          ⟨[5, 0, 7], [.chunk [0, 2, 2, 0, 0, 2, 2, 0]], ⟨[], [-1, -1, -1]⟩, []⟩ =
        some (.exit EXIT_PORT_READ_ERROR
          ⟨[5, 0, 7], [], ⟨[0, 6, 107, 4, 80, 65, 73, 82], []⟩,
            [.zsocket_type_str 5, .zsocket_type_str 5]⟩) := by
  refine ⟨by decide, by decide⟩

/-- Claim C4 as amended: for an envelope with an id in `[0, 10)` and an args tuple
of the arity the command table fixes, whatever the handle table and the
foreign calls give, `handle_cmd` does one of two things, in both without
reading the input. Create, when the new socket is `NULL` or the table is
full, ends the process on its `assert`, nothing written. In every other case
the handler replies with one term, once (see `replies_with`): the process
exits with `EXIT_INTERNAL_ERROR`, nothing written, if the codec does not
encode the term within the reply buffer; otherwise `handle_cmd` returns after
exactly one `write_cmd`, which adds to the output exactly one frame when no
write fails, and a part of that one frame, possibly nothing, when a write
fails: the failure is not detected. -/
theorem one_reply_per_command (x : Ext) (buf : List Nat) (w : World) (id : Int) (args : ETERM)
    (hdec : x.erl_decode buf = some (.tuple [.int id, args])) (hid : 0 ≤ id ∧ id < 10)
    (harity : assert_tuple_size args (args_arity id.toNat : Nat) = true) :
    ((id = 1 ∧ (x.zsocket_new w.calls (ERL_INT_VALUE x (erl_element 1 args)) = NULL ∨
        ∀ k : Nat, k < MAX_SOCKETS → get_socket k w ≠ NULL)) →
      ∃ w1, handle_cmd x buf w HANDLER_COUNT (handlers x) = .abort w1 ∧
        w1.out = w.out ∧ w1.stdin = w.stdin) ∧
    (¬ (id = 1 ∧ (x.zsocket_new w.calls (ERL_INT_VALUE x (erl_element 1 args)) = NULL ∨
        ∀ k : Nat, k < MAX_SOCKETS → get_socket k w ≠ NULL)) →
      ∃ t w1, w1.out = w.out ∧ w1.stdin = w.stdin ∧
        is_reply x w1 t (handle_cmd x buf w HANDLER_COUNT (handlers x)) ∧
        replies_with x w1 t (handle_cmd x buf w HANDLER_COUNT (handlers x))) := by
  obtain ⟨op, hop, he⟩ := handle_cmd_table x buf w id args hdec hid
  obtain ⟨h0, h10⟩ := hid
  rw [he]
  by_cases h1 : id = 1
  · subst h1
    simp only [command_table, Int.toNat_one, Option.some.injEq] at hop
    subst hop
    have ha : assert_tuple_size args 1 = true := by simpa [args_arity] using harity
    constructor
    · rintro ⟨_, hbad⟩
      exact new_aborts x args w ha hbad
    · intro hgood
      have hnew : x.zsocket_new w.calls (ERL_INT_VALUE x (erl_element 1 args)) ≠ NULL :=
        fun hn => hgood ⟨rfl, Or.inl hn⟩
      have hfree : ∃ k : Nat, k < MAX_SOCKETS ∧ get_socket k w = NULL := by
        by_contra hno
        push_neg at hno
        exact hgood ⟨rfl, Or.inr hno⟩
      obtain ⟨t, w1, e1, e2, hr⟩ := new_replies x args w ha hnew hfree
      exact ⟨t, w1, e1, e2, hr, is_reply_replies_with x w1 t _ hr⟩
  · refine ⟨fun hbad => absurd hbad.1 h1, fun _ => ?_⟩
    by_cases hz : id = 0
    · subst hz
      simp only [command_table, Int.toNat_zero, Option.some.injEq] at hop
      subst hop
      exact ⟨ETERM_PONG, w, rfl, rfl, Or.inl rfl, is_reply_replies_with x w _ _ (Or.inl rfl)⟩
    · obtain ⟨n, rfl⟩ : ∃ n : Nat, id = (n : Int) := ⟨id.toNat, by omega⟩
      rw [Int.toNat_ofNat] at hop harity
      obtain ⟨op', hop', hr⟩ := handler_replies x n args w (by omega) (by omega) harity
      rw [hop'] at hop
      cases hop
      rcases hr with ⟨_, hm⟩ | ⟨_, t, c, _, _, hr⟩
      · exact ⟨ETERM_ERROR_INVALID_SOCKET, w, rfl, rfl, Or.inl hm,
          is_reply_replies_with x w _ _ (Or.inl hm)⟩
      · exact ⟨t, w.call c, rfl, rfl, hr, is_reply_replies_with x _ t _ hr⟩

theorem one_reply_per_command_witness :
    (demoExt.erl_decode [2, 0] = some (.tuple [.int 2, .tuple [.int 0]]) ∧
      ((0 : Int) ≤ 2 ∧ (2 : Int) < 10) ∧
      assert_tuple_size (.tuple [.int 0]) (args_arity (2 : Int).toNat : Nat) = true ∧
      ¬ ((2 : Int) = 1) ∧ no_fail w_table.out) ∧
    (((2 : Int) = 1 ∧ (demoExt.zsocket_new w_table.calls
          (ERL_INT_VALUE demoExt (erl_element 1 (.tuple [.int 0]))) = NULL ∨
        ∀ k : Nat, k < MAX_SOCKETS → get_socket k w_table ≠ NULL)) →
      ∃ w1, handle_cmd demoExt [2, 0] w_table HANDLER_COUNT (handlers demoExt) = .abort w1 ∧
        w1.out = w_table.out ∧ w1.stdin = w_table.stdin) ∧
    (¬ ((2 : Int) = 1 ∧ (demoExt.zsocket_new w_table.calls
          (ERL_INT_VALUE demoExt (erl_element 1 (.tuple [.int 0]))) = NULL ∨
        ∀ k : Nat, k < MAX_SOCKETS → get_socket k w_table ≠ NULL)) →
      ∃ t w1, w1.out = w_table.out ∧ w1.stdin = w_table.stdin ∧
        is_reply demoExt w1 t (handle_cmd demoExt [2, 0] w_table HANDLER_COUNT (handlers demoExt)) ∧
        replies_with demoExt w1 t
          (handle_cmd demoExt [2, 0] w_table HANDLER_COUNT (handlers demoExt))) ∧
    handle_cmd demoExt [2, 0] w_table HANDLER_COUNT (handlers demoExt) =
      .ret () ⟨[5, 0, 7], [], ⟨[0, 6, 107, 4, 80, 65, 73, 82], []⟩, [.zsocket_type_str 5]⟩ ∧
    encodes demoExt (.string "PAIR") :=
  ⟨⟨rfl, by decide, by decide, by decide, by decide⟩,
    (one_reply_per_command demoExt [2, 0] w_table 2 (.tuple [.int 0]) rfl (by decide)
      (by decide)).1,
    (one_reply_per_command demoExt [2, 0] w_table 2 (.tuple [.int 0]) rfl (by decide)
      (by decide)).2,
    by decide, by decide⟩

end ErlCzmq
